import Mathlib

/-!
Verification of the page-flow / layout engine of the two PDF report
generators (`active-mode-breakdown.py` and `feed-feature-breakdown.py`).

The scripts subclass an external drawing backend (`FPDF`).  We give a
shallow embedding: a document-generation step is a function from the
mutable drawing state (`Pos`: current page, cursor, font, colors) to the
new state together with the list of emitted drawing primitives (`Op`).

UNITS.  Every numeric quantity of the scripts (millimetre lengths such
as `5.5`, font sizes such as `9.5`, line widths such as `0.4`) is an
exact multiple of one tenth of its unit, and the scripts only add,
subtract and compare them (sums of halves of small integers are exact in
binary floating point, so float rounding never occurs).  The embedding
therefore represents each quantity as an integer number of *tenths*:
`55` stands for the script's `5.5`, `2770` for the page-break trigger
`277`, `95` for font size `9.5`, and so on.  This keeps every value
exact and every definition kernel-computable.

Text wrapping performed by the backend depends on real font metrics, so
the engine is parameterized by a wrapping oracle `wrap : Font → ℤ →
String → List String` (how one hard line is broken at a given width);
hard line breaks on `"\n"` are handled by the engine itself, as the
backend does.

Timestamps (`datetime.now()`) enter the output only as text; they are
modelled as distinguished `Piece.stamp` fragments carrying the formatted
string, so that "equal up to the generation timestamp" is expressible.
The backend's `alias_nb_pages` total-page placeholder is the
distinguished fragment `Piece.nbAlias`, substituted at output time.
-/

set_option maxRecDepth 100000

namespace PDFGen

/-- RGB color triple, as in the scripts' module-level theme constants. -/
abbrev Color := Nat × Nat × Nat

def BG_PRIMARY : Color := (10, 10, 15)
def BG_CARD : Color := (22, 22, 42)
def BG_CODE : Color := (16, 16, 30)
def TEXT_PRIMARY : Color := (232, 232, 240)
def TEXT_SECONDARY : Color := (160, 160, 184)
def TEXT_MUTED : Color := (106, 106, 128)
def ACCENT : Color := (121, 134, 203)
def ACCENT_DIM : Color := (80, 90, 150)
def SUCCESS : Color := (102, 187, 106)
def DANGER : Color := (239, 83, 80)
def CODE_TEXT : Color := (180, 191, 255)

/-- A font selection: family, style, size in tenths of a point (as set
by `set_font`; `95` is the script's `9.5`). -/
abbrev Font := String × String × ℤ

/-- A4 page width: 210 mm. -/
def pageW : ℤ := 2100
/-- A4 page height: 297 mm. -/
def pageH : ℤ := 2970
/-- Left margin (backend default, 10 mm). -/
def lMargin : ℤ := 100
/-- Right margin (backend default, 10 mm). -/
def rMargin : ℤ := 100
/-- Top margin (backend default, 10 mm). -/
def tMargin : ℤ := 100
/-- Auto page-break trigger: both scripts call
`set_auto_page_break(auto=True, margin=20)`, so a row of height `h` at
cursor `y` forces a page break when `y + h > 297 - 20 = 277` mm. -/
def pageBreakTrigger : ℤ := 2770

/-- A fragment of drawn text.  `stamp` marks a generation-timestamp
string, `nbAlias` the backend's total-page-count placeholder that is
substituted once the final page count is known. -/
inductive Piece where
  | lit (s : String)
  | stamp (s : String)
  | nbAlias
  deriving DecidableEq, Repr

/-- The string a fragment displays as before alias resolution
(the placeholder itself prints as the alias token). -/
def Piece.render : Piece → String
  | .lit s => s
  | .stamp s => s
  | .nbAlias => "\x7bnb\x7d"

/-- The string displayed by a list of fragments. -/
def flatten : List Piece → String
  | [] => ""
  | q :: qs => q.render ++ flatten qs

/-- One drawing primitive emitted to the page surface, tagged with the
page it lands on. -/
inductive Op where
  | rect (page : Nat) (x y w h : ℤ) (color : Color)
  | line (page : Nat) (x1 y1 x2 y2 : ℤ) (color : Color) (width : ℤ)
  | text (page : Nat) (x y w h : ℤ) (font : Font) (color : Color)
      (align : String) (content : List Piece)
  deriving DecidableEq, Repr

/-- The page a primitive is drawn on. -/
def Op.pg : Op → Nat
  | .rect p _ _ _ _ _ => p
  | .line p _ _ _ _ _ _ => p
  | .text p _ _ _ _ _ _ _ _ => p

/-- Mutable drawing state of the backend: current page number, cursor,
current font, colors, line width, and the in-footer flag (the backend
disables automatic page breaks while the footer callback runs). -/
structure Pos where
  page : Nat
  x : ℤ
  y : ℤ
  fontFamily : String
  fontStyle : String
  fontSize : ℤ
  textColor : Color
  fillColor : Color
  drawColor : Color
  lineWidth : ℤ
  inFooter : Bool
  deriving DecidableEq, Repr

/-- The current font triple. -/
def Pos.font (p : Pos) : Font := (p.fontFamily, p.fontStyle, p.fontSize)

/-- The style data saved and restored by the backend around a page
break (font, colors, line width). -/
structure Style where
  fontFamily : String
  fontStyle : String
  fontSize : ℤ
  textColor : Color
  fillColor : Color
  drawColor : Color
  lineWidth : ℤ
  deriving DecidableEq, Repr

def Pos.style (p : Pos) : Style :=
  ⟨p.fontFamily, p.fontStyle, p.fontSize, p.textColor, p.fillColor,
    p.drawColor, p.lineWidth⟩

def Pos.withStyle (p : Pos) (s : Style) : Pos :=
  { p with
    fontFamily := s.fontFamily
    fontStyle := s.fontStyle
    fontSize := s.fontSize
    textColor := s.textColor
    fillColor := s.fillColor
    drawColor := s.drawColor
    lineWidth := s.lineWidth }

/-- A document-generation step: drawing state in, drawing state out plus
the primitives emitted by the step. -/
abbrev M := Pos → Pos × List Op

/-- The step that does nothing. -/
def idM : M := fun p => (p, [])

/-- Sequencing of steps; emitted primitives are concatenated in order. -/
def seqM (f g : M) : M := fun p =>
  let r := f p
  let s := g r.1
  (s.1, r.2 ++ s.2)

/-- Run a list of steps in order. -/
def runAll (ms : List M) : M := ms.foldr seqM idM

/-- Read the current cursor ordinate (the backend's `get_y()`). -/
def withY (f : ℤ → M) : M := fun p => f p.y p

/-- Read the current abscissa (the backend's `get_x()`). -/
def withX (f : ℤ → M) : M := fun p => f p.x p

/-- Read the current page number (the backend's `page_no()`). -/
def withPage (f : Nat → M) : M := fun p => f p.page p

/-- `set_font(family, style, size)`. -/
def set_font (fam sty : String) (sz : ℤ) : M := fun p =>
  ({ p with fontFamily := fam, fontStyle := sty, fontSize := sz }, [])

/-- `set_text_color(r, g, b)`. -/
def set_text_color (c : Color) : M := fun p => ({ p with textColor := c }, [])

/-- `set_fill_color(r, g, b)`. -/
def set_fill_color (c : Color) : M := fun p => ({ p with fillColor := c }, [])

/-- `set_draw_color(r, g, b)`. -/
def set_draw_color (c : Color) : M := fun p => ({ p with drawColor := c }, [])

/-- `set_line_width(w)`. -/
def set_line_width (wd : ℤ) : M := fun p => ({ p with lineWidth := wd }, [])

/-- `set_x(v)`. -/
def set_x (v : ℤ) : M := fun p => ({ p with x := v }, [])

/-- `set_y(v)`: negative values are measured from the bottom of the
page; the abscissa is reset to the left margin. -/
def set_y (v : ℤ) : M := fun p =>
  ({ p with x := lMargin, y := if 0 ≤ v then v else pageH + v }, [])

/-- `set_xy(x, y)`. -/
def set_xy (vx vy : ℤ) : M := seqM (set_y vy) (set_x vx)

/-- `ln(h)`: move to the left margin, `h` lower. -/
def ln (h : ℤ) : M := fun p => ({ p with x := lMargin, y := p.y + h }, [])

/-- `rect(x, y, w, h, "F")`: filled rectangle in the current fill color
(the scripts only ever use style `"F"`). -/
def rect (x y w h : ℤ) : M := fun p =>
  (p, [Op.rect p.page x y w h p.fillColor])

/-- `line(x1, y1, x2, y2)` in the current draw color and line width. -/
def line (x1 y1 x2 y2 : ℤ) : M := fun p =>
  (p, [Op.line p.page x1 y1 x2 y2 p.drawColor p.lineWidth])

/-- Effective width of a cell of declared width `w` at abscissa `x`
(`0` extends to the right margin). -/
def cellW (w x : ℤ) : ℤ := if w = 0 then pageW - rMargin - x else w

/-- The callbacks a `FeaturePDF` instance supplies to the backend: the
wrapping oracle and the header/footer overrides invoked on every page
transition. -/
structure Hooks where
  wrap : Font → ℤ → String → List String
  hdr : M
  ftr : M

/-- Hooks with trivial header/footer, used only *inside* the header and
footer definitions themselves (where the backend never re-enters the
page-break machinery: the footer runs with `inFooter` set, and the
header's only cell sits at `y = 5` mm, far above the trigger). -/
def hk0 : Hooks := ⟨fun _ _ s => [s], idM, idM⟩

/-- `add_page()`: runs the footer override on the finished page (with
automatic breaks disabled), starts the next page with the cursor at the
top margin, runs the header override, and restores the font, colors and
line width that were current before the call — exactly the backend's
page-transition protocol. -/
def add_page (hk : Hooks) : M := fun p =>
  let saved := p.style
  let fr :=
    if 1 ≤ p.page then
      let r := hk.ftr { p with inFooter := true }
      ({ r.1 with inFooter := false }, r.2)
    else (p, [])
  let p2 := { fr.1.withStyle saved with
    page := fr.1.page + 1, x := lMargin, y := tMargin }
  let hr := hk.hdr p2
  (hr.1.withStyle saved, fr.2 ++ hr.2)

/-- `cell(w, h, txt, align, new_x, new_y)`: if the row does not fit
above the break trigger (and the footer is not running) the backend
first breaks the page, preserving the abscissa.  `w = 0` extends the
cell to the right margin.  `next = true` models
`new_x="LMARGIN", new_y="NEXT"`; `next = false` the default
`new_x="RIGHT", new_y="TOP"`. -/
def cell (hk : Hooks) (w h : ℤ) (content : List Piece) (align : String)
    (next : Bool) : M := fun p =>
  let br :=
    if pageBreakTrigger < p.y + h ∧ p.inFooter = false then
      let r := add_page hk p
      ({ r.1 with x := p.x }, r.2)
    else (p, [])
  let q := br.1
  let w0 := cellW w q.x
  let op := Op.text q.page q.x q.y w0 h q.font q.textColor align content
  let q' := if next then { q with x := lMargin, y := q.y + h }
            else { q with x := q.x + w0 }
  (q', br.2 ++ [op])

/-- One output line of a `multi_cell` (the backend draws each wrapped
line as a cell of width `w0` at the fixed abscissa `x0`, breaking the
page first when the line does not fit; with `fill` it paints the line's
background rectangle). -/
def mcLine (hk : Hooks) (x0 w0 h : ℤ) (fill : Bool) (s : String) : M :=
  fun q =>
  let br :=
    if pageBreakTrigger < q.y + h ∧ q.inFooter = false then
      let r := add_page hk q
      ({ r.1 with x := x0 }, r.2)
    else (q, [])
  let q1 := br.1
  let ops :=
    (if fill then [Op.rect q1.page x0 q1.y w0 h q1.fillColor] else []) ++
    [Op.text q1.page x0 q1.y w0 h q1.font q1.textColor "J" [Piece.lit s]]
  ({ q1 with y := q1.y + h }, br.2 ++ ops)

/-- The line loop of `multi_cell`. -/
def mcLines (hk : Hooks) (x0 w0 h : ℤ) (fill : Bool) : List String → M
  | [] => idM
  | s :: ss => seqM (mcLine hk x0 w0 h fill s) (mcLines hk x0 w0 h fill ss)

/-- Split a character list at every newline character (semantics of
Python's `str.split` on a single newline: `"a\nb"` gives `["a", "b"]`,
a trailing newline yields a final empty line, the empty text is one
empty line). -/
def splitNl : List Char → List (List Char)
  | [] => [[]]
  | c :: cs =>
      if c = '\n' then [] :: splitNl cs
      else
        match splitNl cs with
        | [] => [[c]]
        | l :: ls => (c :: l) :: ls

/-- The hard lines of a text (split at newline characters). -/
def hardLines (text : String) : List String :=
  (splitNl text.data).map String.mk

/-- The wrapped lines of a text: hard line breaks on `"\n"`, then each
hard line broken at width `w0` by the font-metric oracle. -/
def splitLines (hk : Hooks) (f : Font) (w0 : ℤ) (text : String) :
    List String :=
  (hardLines text).flatMap (hk.wrap f w0)

/-- `multi_cell(w, h, text, fill)`: wraps `text` at width `w` (`0`
meaning up to the right margin), draws each line at the abscissa where
the call started, and finishes at the left margin just below the last
line (`new_x="LMARGIN", new_y="NEXT"`, the backend default). -/
def multi_cell (hk : Hooks) (w h : ℤ) (text : String) (fill : Bool) : M :=
  fun p =>
  let w0 := cellW w p.x
  let r := mcLines hk p.x w0 h fill (splitLines hk p.font w0 text) p
  ({ r.1 with x := lMargin }, r.2)

/-- `output()`-time finalization: the backend runs the footer override
once for the last page. -/
def close (hk : Hooks) : M := fun p =>
  if 1 ≤ p.page then
    let r := hk.ftr { p with inFooter := true }
    ({ r.1 with inFooter := false }, r.2)
  else (p, [])

/-- Initial backend state (`FeaturePDF()` before the first page;
default font size 12 pt, line width 0.2 mm, black colors). -/
def initPos : Pos :=
  { page := 0
    x := 100
    y := 100
    fontFamily := ""
    fontStyle := ""
    fontSize := 120
    textColor := (0, 0, 0)
    fillColor := (0, 0, 0)
    drawColor := (0, 0, 0)
    lineWidth := 2
    inFooter := false }

/-- The two formatted renderings of `datetime.now()` used by the
scripts: the date-only form on the cover, the long form in footers. -/
structure Now where
  date : String
  long : String
  deriving DecidableEq, Repr

namespace Active

/-- Header title of `active-mode-breakdown.py`. -/
def headerTitle : String :=
  "AutoNateAI Learning Hub  |  Admin/User Mode Switch Build Breakdown"

/-- `FeaturePDF.header` of `active-mode-breakdown.py`: 18 mm background
band, 9 pt muted title at `y = 5`, accent rule at `y = 16`. -/
def header : M := runAll [
  set_fill_color BG_PRIMARY,
  rect 0 0 2100 180,
  set_font "Helvetica" "B" 90,
  set_text_color TEXT_MUTED,
  set_y 50,
  cell hk0 0 80 [Piece.lit headerTitle] "L" false,
  set_draw_color ACCENT,
  set_line_width 4,
  line 100 160 2000 160,
  ln 120]

/-- `FeaturePDF.footer` of `active-mode-breakdown.py` (identical in the
feed script): 15 mm above the page bottom, 7.5 pt italic: page number,
total-page placeholder, generation timestamp, confidentiality marker. -/
def footer (ts : String) : M := runAll [
  set_y (-150),
  set_font "Helvetica" "I" 75,
  set_text_color TEXT_MUTED,
  withPage (fun n => cell hk0 0 100
    [Piece.lit ("Page " ++ toString n ++ "/"), Piece.nbAlias,
     Piece.lit "  |  Generated ", Piece.stamp ts,
     Piece.lit "  |  CONFIDENTIAL"] "C" false)]

/-- `FeaturePDF.dark_bg`: full-page background fill. -/
def dark_bg : M := runAll [
  set_fill_color BG_PRIMARY,
  rect 0 0 2100 2970]

/-- `FeaturePDF.section_title`: 14 pt bold row of height 10 mm between
two 4 mm gaps, with an accent underline from `x = 10` to `x = 85`. -/
def section_title (hk : Hooks) (title : String) : M := runAll [
  set_font "Helvetica" "B" 140,
  set_text_color TEXT_PRIMARY,
  ln 40,
  cell hk 0 100 [Piece.lit title] "" true,
  set_draw_color ACCENT,
  set_line_width 4,
  withY (fun y => line 100 y 850 y),
  ln 40]

/-- `FeaturePDF.sub_title`: 11 pt accent row of height 8 mm between a
2 mm and a 1 mm gap. -/
def sub_title (hk : Hooks) (title : String) : M := runAll [
  set_font "Helvetica" "B" 110,
  set_text_color ACCENT,
  ln 20,
  cell hk 0 80 [Piece.lit title] "" true,
  ln 10]

/-- `FeaturePDF.body_text`: 10 pt wrapped text at 5.5 mm line height,
then a 2 mm gap. -/
def body_text (hk : Hooks) (text : String) : M := runAll [
  set_font "Helvetica" "" 100,
  set_text_color TEXT_SECONDARY,
  multi_cell hk 0 55 text false,
  ln 20]

/-- `FeaturePDF.bullet(text, indent=15)`: captures the entry abscissa,
indents, draws the 6 mm marker cell, then the wrapped text, then a 1 mm
gap. -/
def bullet (hk : Hooks) (text : String) (indent : ℤ) : M := fun p =>
  runAll [
    set_font "Helvetica" "" 100,
    set_text_color TEXT_SECONDARY,
    set_x (p.x + indent),
    set_text_color ACCENT,
    cell hk 60 55 [Piece.lit ">"] "" false,
    set_text_color TEXT_SECONDARY,
    multi_cell hk 0 55 text false,
    ln 10] p

/-- `FeaturePDF.code_block`: 8.5 pt fixed-pitch text filled with the
code background, 180 mm wide starting at `x = 15`, 4.5 mm line height,
then a 3 mm gap. -/
def code_block (hk : Hooks) (text : String) : M := runAll [
  set_font "Courier" "" 85,
  set_fill_color BG_CODE,
  set_text_color CODE_TEXT,
  set_x 150,
  multi_cell hk 1800 45 text true,
  ln 30]

/-- `FeaturePDF.status_badge`: a 6 mm row whose color and badge text are
chosen by the status string, then a 1 mm gap. -/
def status_badge (hk : Hooks) (label status : String) : M := runAll [
  set_font "Helvetica" "B" 90,
  (if status = "complete" then set_text_color SUCCESS
   else if status = "in-progress" then set_text_color (255, 183, 77)
   else set_text_color TEXT_MUTED),
  cell hk 0 60
    [Piece.lit ("  " ++ label ++ "  " ++
      (if status = "complete" then "[COMPLETE]"
       else if status = "in-progress" then "[IN PROGRESS]"
       else "[PLANNED]"))] "" true,
  ln 10]

/-- The hooks a `FeaturePDF` instance of the active-mode script hands
the backend. -/
def hooks (w : Font → ℤ → String → List String) (now : Now) : Hooks :=
  ⟨w, header, footer now.long⟩

end Active

namespace Feed

/-- Header title of `feed-feature-breakdown.py`. -/
def headerTitle : String :=
  "AutoNateAI Learning Hub  |  Feed & Post Management Feature Breakdown"

/-- `FeaturePDF.header` of `feed-feature-breakdown.py`. -/
def header : M := runAll [
  set_fill_color BG_PRIMARY,
  rect 0 0 2100 180,
  set_font "Helvetica" "B" 90,
  set_text_color TEXT_MUTED,
  set_y 50,
  cell hk0 0 80 [Piece.lit headerTitle] "L" false,
  set_draw_color ACCENT,
  set_line_width 4,
  line 100 160 2000 160,
  ln 120]

/-- `FeaturePDF.footer` of `feed-feature-breakdown.py`. -/
def footer (ts : String) : M := runAll [
  set_y (-150),
  set_font "Helvetica" "I" 75,
  set_text_color TEXT_MUTED,
  withPage (fun n => cell hk0 0 100
    [Piece.lit ("Page " ++ toString n ++ "/"), Piece.nbAlias,
     Piece.lit "  |  Generated ", Piece.stamp ts,
     Piece.lit "  |  CONFIDENTIAL"] "C" false)]

/-- `FeaturePDF.dark_bg` of `feed-feature-breakdown.py`. -/
def dark_bg : M := runAll [
  set_fill_color BG_PRIMARY,
  rect 0 0 2100 2970]

/-- `FeaturePDF.section_title` of `feed-feature-breakdown.py`. -/
def section_title (hk : Hooks) (title : String) : M := runAll [
  set_font "Helvetica" "B" 140,
  set_text_color TEXT_PRIMARY,
  ln 40,
  cell hk 0 100 [Piece.lit title] "" true,
  set_draw_color ACCENT,
  set_line_width 4,
  withY (fun y => line 100 y 850 y),
  ln 40]

/-- `FeaturePDF.sub_title` of `feed-feature-breakdown.py`. -/
def sub_title (hk : Hooks) (title : String) : M := runAll [
  set_font "Helvetica" "B" 110,
  set_text_color ACCENT,
  ln 20,
  cell hk 0 80 [Piece.lit title] "" true,
  ln 10]

/-- `FeaturePDF.body_text` of `feed-feature-breakdown.py`. -/
def body_text (hk : Hooks) (text : String) : M := runAll [
  set_font "Helvetica" "" 100,
  set_text_color TEXT_SECONDARY,
  multi_cell hk 0 55 text false,
  ln 20]

/-- `FeaturePDF.bullet` of `feed-feature-breakdown.py`. -/
def bullet (hk : Hooks) (text : String) (indent : ℤ) : M := fun p =>
  runAll [
    set_font "Helvetica" "" 100,
    set_text_color TEXT_SECONDARY,
    set_x (p.x + indent),
    set_text_color ACCENT,
    cell hk 60 55 [Piece.lit ">"] "" false,
    set_text_color TEXT_SECONDARY,
    multi_cell hk 0 55 text false,
    ln 10] p

/-- `FeaturePDF.code_block` of `feed-feature-breakdown.py` (it reads
`y_start = self.get_y()` into an unused local before drawing; the read
has no effect on the state or the output). -/
def code_block (hk : Hooks) (text : String) : M := runAll [
  set_font "Courier" "" 85,
  set_fill_color BG_CODE,
  set_text_color CODE_TEXT,
  set_x 150,
  multi_cell hk 1800 45 text true,
  ln 30]

/-- `FeaturePDF.status_badge` of `feed-feature-breakdown.py`. -/
def status_badge (hk : Hooks) (label status : String) : M := runAll [
  set_font "Helvetica" "B" 90,
  (if status = "complete" then set_text_color SUCCESS
   else if status = "in-progress" then set_text_color (255, 183, 77)
   else set_text_color TEXT_MUTED),
  cell hk 0 60
    [Piece.lit ("  " ++ label ++ "  " ++
      (if status = "complete" then "[COMPLETE]"
       else if status = "in-progress" then "[IN PROGRESS]"
       else "[PLANNED]"))] "" true,
  ln 10]

/-- `FeaturePDF.card_start` of `feed-feature-breakdown.py`. -/
def card_start : M := set_fill_color BG_CARD

/-- `FeaturePDF.card_end` of `feed-feature-breakdown.py` (a no-op). -/
def card_end : M := idM

/-- The hooks a `FeaturePDF` instance of the feed script hands the
backend. -/
def hooks (w : Font → ℤ → String → List String) (now : Now) : Hooks :=
  ⟨w, header, footer now.long⟩

end Feed

/-- Body of the verification-checklist loop of `build_pdf` (identical in
both scripts): glyph and color chosen by the done-flag, a fixed-width
10 mm glyph cell, then the label. -/
def checklist_row (hk : Hooks) (label : String) (done : Bool) : M := runAll [
  (if done then set_text_color SUCCESS else set_text_color DANGER),
  set_font "Courier" "B" 95,
  cell hk 100 60 [Piece.lit (if done then "[x]" else "[ ]")] "" false,
  set_font "Helvetica" "" 100,
  set_text_color TEXT_SECONDARY,
  cell hk 0 60 [Piece.lit label] "" true]

/-- The whole checklist loop over its `(label, done)` rows. -/
def checklist_loop (hk : Hooks) (rows : List (String × Bool)) : M :=
  runAll (rows.map (fun r => checklist_row hk r.1 r.2))

/-- Body of the table-of-contents loop of `build_pdf` (identical in both
scripts): a separator line 6 mm below the cursor, then the entry row. -/
def toc_entry (hk : Hooks) (item : String) : M := fun p =>
  runAll [
    set_font "Helvetica" "" 110,
    set_text_color TEXT_PRIMARY,
    set_draw_color (40, 40, 60),
    line 150 (p.y + 60) 1950 (p.y + 60),
    cell hk 0 90 [Piece.lit ("  " ++ item)] "" true] p

/-- The cover / title page of `build_pdf` (same call sequence in both
scripts; the title lines, version line and purpose paragraph are the
report-specific strings).  Starts with its own explicit `add_page` and
`dark_bg`, exactly as in the scripts. -/
def cover_page (hk : Hooks) (now : Now) (t1 t2 ver purpose : String) : M :=
  runAll [
    add_page hk,
    Active.dark_bg,
    ln 350,
    set_draw_color ACCENT,
    set_line_width 20,
    withY (fun y => line 400 y 1700 y),
    ln 80,
    set_font "Helvetica" "B" 300,
    set_text_color TEXT_PRIMARY,
    cell hk 0 140 [Piece.lit t1] "C" true,
    cell hk 0 140 [Piece.lit t2] "C" true,
    ln 60,
    set_line_width 5,
    withY (fun y => line 700 y 1400 y),
    ln 100,
    set_font "Helvetica" "" 120,
    set_text_color ACCENT,
    cell hk 0 80 [Piece.lit "AutoNateAI Learning Hub"] "C" true,
    ln 20,
    set_font "Helvetica" "" 100,
    set_text_color TEXT_SECONDARY,
    cell hk 0 80 [Piece.lit "Last Updated: ", Piece.stamp now.date] "C" true,
    ln 20,
    set_font "Helvetica" "I" 90,
    set_text_color TEXT_MUTED,
    cell hk 0 80 [Piece.lit ver] "C" true,
    ln 300,
    set_fill_color BG_CARD,
    withY (fun y => runAll [rect 150 y 1800 380, set_xy 200 (y + 40)]),
    set_font "Helvetica" "B" 100,
    set_text_color ACCENT,
    cell hk 0 60 [Piece.lit "Document Purpose"] "" true,
    set_x 200,
    set_font "Helvetica" "" 95,
    set_text_color TEXT_SECONDARY,
    multi_cell hk 1700 50 purpose false]

/-- The steps of the cover page before its purpose paragraph (used to
factor the concrete cover computation; `cover_page` is definitionally
`runAll (cover_pre ... ++ [multi_cell ...])`). -/
def cover_pre (hk : Hooks) (now : Now) (t1 t2 ver : String) : List M := [
  add_page hk,
  Active.dark_bg,
  ln 350,
  set_draw_color ACCENT,
  set_line_width 20,
  withY (fun y => line 400 y 1700 y),
  ln 80,
  set_font "Helvetica" "B" 300,
  set_text_color TEXT_PRIMARY,
  cell hk 0 140 [Piece.lit t1] "C" true,
  cell hk 0 140 [Piece.lit t2] "C" true,
  ln 60,
  set_line_width 5,
  withY (fun y => line 700 y 1400 y),
  ln 100,
  set_font "Helvetica" "" 120,
  set_text_color ACCENT,
  cell hk 0 80 [Piece.lit "AutoNateAI Learning Hub"] "C" true,
  ln 20,
  set_font "Helvetica" "" 100,
  set_text_color TEXT_SECONDARY,
  cell hk 0 80 [Piece.lit "Last Updated: ", Piece.stamp now.date] "C" true,
  ln 20,
  set_font "Helvetica" "I" 90,
  set_text_color TEXT_MUTED,
  cell hk 0 80 [Piece.lit ver] "C" true,
  ln 300,
  set_fill_color BG_CARD,
  withY (fun y => runAll [rect 150 y 1800 380, set_xy 200 (y + 40)]),
  set_font "Helvetica" "B" 100,
  set_text_color ACCENT,
  cell hk 0 60 [Piece.lit "Document Purpose"] "" true,
  set_x 200,
  set_font "Helvetica" "" 95,
  set_text_color TEXT_SECONDARY]

/-- The drawing state at which the body of the table-of-contents
section continues after its `section_title`: top of page 2, directly
below the title underline. -/
def tocStartPos : Pos :=
  { page := 2
    x := 100
    y := 350
    fontFamily := "Helvetica"
    fontStyle := "B"
    fontSize := 140
    textColor := TEXT_PRIMARY
    fillColor := BG_PRIMARY
    drawColor := ACCENT
    lineWidth := 4
    inFooter := false }

/-- One renderable content unit of the report body, as drawn by the
corresponding `FeaturePDF` helper or `build_pdf` loop body. -/
inductive Block where
  | sectionTitle (t : String)
  | subTitle (t : String)
  | bodyText (t : String)
  | bullet (t : String) (indent : ℤ)
  | codeBlock (t : String)
  | statusBadge (label status : String)
  | checkRow (label : String) (done : Bool)
  | tocEntry (item : String)
  deriving DecidableEq, Repr

/-- Draw one block with the active-mode script's helpers. -/
def renderBlock (hk : Hooks) : Block → M
  | .sectionTitle t => Active.section_title hk t
  | .subTitle t => Active.sub_title hk t
  | .bodyText t => Active.body_text hk t
  | .bullet t ind => Active.bullet hk t ind
  | .codeBlock t => Active.code_block hk t
  | .statusBadge l s => Active.status_badge hk l s
  | .checkRow l d => checklist_row hk l d
  | .tocEntry i => toc_entry hk i

/-- One top-level section of `build_pdf`: either the cover page or an
ordinary section, which (as in both scripts) always begins with an
explicit `add_page()` followed by `dark_bg()`. -/
inductive Sect where
  | cover (t1 t2 ver purpose : String)
  | blocks (bs : List Block)

/-- Draw one section. -/
def renderSect (hk : Hooks) (now : Now) : Sect → M
  | .cover t1 t2 ver purpose => cover_page hk now t1 t2 ver purpose
  | .blocks bs =>
      runAll ([add_page hk, Active.dark_bg] ++ bs.map (renderBlock hk))

/-- Draw a whole document (the section sequence of a `build_pdf`). -/
def renderDoc (hk : Hooks) (now : Now) (doc : List Sect) : M :=
  runAll (doc.map (renderSect hk now))

/-- Substitute the total page count for the placeholder fragment, the
backend's `alias_nb_pages` resolution pass. -/
def resolvePiece (total : Nat) : Piece → Piece
  | .nbAlias => .lit (toString total)
  | q => q

/-- Alias resolution on one primitive. -/
def resolveOp (total : Nat) : Op → Op
  | .text pg x y w h f c a content =>
      .text pg x y w h f c a (content.map (resolvePiece total))
  | op => op

/-- Full run of a `build_pdf` document with the active-mode hooks:
render all sections from the fresh backend state, then finalize
(footer of the last page). -/
def buildRun (w : Font → ℤ → String → List String) (now : Now)
    (doc : List Sect) : Pos × List Op :=
  seqM (renderDoc (Active.hooks w now) now doc)
    (close (Active.hooks w now)) initPos

/-- Total number of pages of the finished document. -/
def totalPages (w : Font → ℤ → String → List String) (now : Now)
    (doc : List Sect) : Nat := (buildRun w now doc).1.page

/-- The finished document: the emitted primitives with the total-page
placeholder resolved to the final page count. -/
def outputOps (w : Font → ℤ → String → List String) (now : Now)
    (doc : List Sect) : List Op :=
  (buildRun w now doc).2.map (resolveOp (totalPages w now doc))

/-- Blank out timestamp fragments (used to state "byte-identical except
for the embedded generation timestamp"). -/
def scrubPiece : Piece → Piece
  | .stamp _ => .stamp ""
  | q => q

/-- Timestamp-blanking on one primitive. -/
def scrubOp : Op → Op
  | .text pg x y w h f c a content =>
      .text pg x y w h f c a (content.map scrubPiece)
  | op => op

/-- A wrapping oracle for concrete evaluation: every hard line fits on
one wrapped line (adequate for inputs whose lines are narrower than the
wrap width). -/
def noWrap : Font → ℤ → String → List String := fun _ _ s => [s]

/-- Cover data of `active-mode-breakdown.py`. -/
def activePurpose : String :=
  "This document provides a technical build breakdown of the Admin/User Mode Switch feature for the AutoNateAI Learning Hub. It covers the architecture, service design, toggle UI, Firestore persistence, file changes, and how the feature integrates with the existing RBAC system across all 11 dashboard pages."

/-- Table-of-contents entries of `active-mode-breakdown.py`. -/
def activeToc : List String := [
  "1.  Feature Overview",
  "2.  Problem Statement",
  "3.  Architecture",
  "4.  ActiveModeService API",
  "5.  Toggle UI Design",
  "6.  Firestore & localStorage Schema",
  "7.  Dashboard Page Integration",
  "8.  Special Page Handling",
  "9.  File Change Map",
  "10. Security Considerations",
  "11. Verification Checklist"]

/-- Verification-checklist rows of `active-mode-breakdown.py`. -/
def activeChecklist : List (String × Bool) := [
  ("ActiveModeService loads on all 11 dashboard pages", true),
  ("Toggle appears in sidebar for admin users only", true),
  ("Toggle hidden for non-admin users", true),
  ("Admin mode shows Basketball + Admin sections", true),
  ("User mode hides Basketball + Admin sections", true),
  ("Mode persists across page navigations (localStorage)", true),
  ("Mode persists across browser sessions (Firestore)", true),
  ("Toggle works in collapsed sidebar (labels hidden)", true),
  ("Toggle works in mobile sidebar drawer", true),
  ("index.html: isAdminUser variable set correctly", true),
  ("index.html: org basketball check works in user mode", true),
  ("basketball-sim.html: access gate unchanged", true),
  ("basketball-sim.html: basketball section always visible", true),
  ("No RBAC admin-section display blocks remain in pages", true),
  ("Script tag present on all 11 pages", true),
  ("Non-admin users see no toggle, no admin sections", true),
  ("Firestore write uses merge (no field overwrite)", true),
  ("localStorage cache cleared on logout", false)]

/-- The cover section of `active-mode-breakdown.py`. -/
def activeCover : Sect :=
  .cover "Admin / User Mode Switch" "Build Breakdown"
    "Version 1.0  |  Status: Pushed to Main" activePurpose

/-- The table-of-contents section of `active-mode-breakdown.py`. -/
def activeTocSect : Sect :=
  .blocks (.sectionTitle "Table of Contents" :: activeToc.map .tocEntry)

/-- The three primitives the shared `header` override draws on page
`pg` (background band, title, accent rule). -/
def hdrOps (pg : Nat) (title : String) : List Op := [
  Op.rect pg 0 0 2100 180 BG_PRIMARY,
  Op.text pg 100 50 1900 80 ("Helvetica", "B", 90) TEXT_MUTED "L"
    [Piece.lit title],
  Op.line pg 100 160 2000 160 ACCENT 4]

/-- The text content of the footer of page `pg` before alias
resolution. -/
def ftrContent (pg : Nat) (ts : String) : List Piece := [
  Piece.lit ("Page " ++ toString pg ++ "/"), Piece.nbAlias,
  Piece.lit "  |  Generated ", Piece.stamp ts,
  Piece.lit "  |  CONFIDENTIAL"]

/-- The single primitive the shared `footer` override draws on page
`pg`. -/
def ftrOp (pg : Nat) (ts : String) : Op :=
  Op.text pg 100 2820 1900 100 ("Helvetica", "I", 75) TEXT_MUTED "C"
    (ftrContent pg ts)

/-- State after the shared `header` override has run. -/
def afterHeader (p : Pos) : Pos :=
  { p with
    x := 100
    y := 170
    fontFamily := "Helvetica"
    fontStyle := "B"
    fontSize := 90
    textColor := TEXT_MUTED
    fillColor := BG_PRIMARY
    drawColor := ACCENT
    lineWidth := 4 }

/-- State after the shared `footer` override has run (page and the
in-footer flag unchanged). -/
def afterFooter (p : Pos) : Pos :=
  { p with
    x := 2000
    y := 2820
    fontFamily := "Helvetica"
    fontStyle := "I"
    fontSize := 75
    textColor := TEXT_MUTED }

/-- State after `add_page`: next page, cursor below the header band,
style restored. -/
def afterPage (p : Pos) : Pos :=
  { p with page := p.page + 1, x := 100, y := 170, inFooter := false }

/-- The primitives a `multi_cell` emits when no page break intervenes:
one (optionally filled) line cell per wrapped line, at consecutive
ordinates. -/
def mcOps (pg : Nat) (x0 w0 h : ℤ) (fill : Bool) (fc tc : Color)
    (fnt : Font) : ℤ → List String → List Op
  | _, [] => []
  | y, s :: ss =>
      ((if fill then [Op.rect pg x0 y w0 h fc] else []) ++
        [Op.text pg x0 y w0 h fnt tc "J" [Piece.lit s]]) ++
      mcOps pg x0 w0 h fill fc tc fnt (y + h) ss

/-- Classification of the primitives emitted by the checklist loop: the
fixed-width 9.5 pt Courier glyph cell or the 10 pt Helvetica label
cell, with the displayed string and its color.  Decoration emitted by a
page break matches neither shape. -/
inductive RowPiece where
  | glyph (s : String) (c : Color)
  | label (s : String) (c : Color)
  deriving DecidableEq, Repr

/-- Pick out the checklist glyph and label cells of an emitted
primitive (by their font and row height). -/
def pick : Op → Option RowPiece
  | .text _ _ _ _ h fnt c _ content =>
      if fnt = ("Courier", "B", 95) ∧ h = 60 then
        some (.glyph (flatten content) c)
      else if fnt = ("Helvetica", "", 100) ∧ h = 60 then
        some (.label (flatten content) c)
      else none
  | _ => none

/-- What the checklist loop is supposed to draw for one row: the glyph
chosen and colored by the done-flag, then the label in secondary
text color. -/
def expectedRow (label : String) (done : Bool) : List RowPiece := [
  .glyph (if done then "[x]" else "[ ]")
    (if done then SUCCESS else DANGER),
  .label label TEXT_SECONDARY]

/-- Replace the drawn string `a` by `b` in a primitive (used to state
that the two generators' headers differ only in the title string). -/
def retitleOp (a b : String) : Op → Op
  | .text pg x y w h f c al content =>
      .text pg x y w h f c al
        (if content = [Piece.lit a] then [Piece.lit b] else content)
  | op => op

/-- The page `pg` carries the header band: its full-width 18 mm
background fill and its accent rule at `y = 16`. -/
def hdrBandOn (pg : Nat) (l : List Op) : Prop :=
  Op.rect pg 0 0 2100 180 BG_PRIMARY ∈ l ∧
  Op.line pg 100 160 2000 160 ACCENT 4 ∈ l

/-- Decoration invariant: every started page carries the header band,
every finished page its footer, and the footer callback is not
running. -/
def Decor (ts : String) (p : Pos) (l : List Op) : Prop :=
  (∀ pg, 1 ≤ pg → pg ≤ p.page → hdrBandOn pg l) ∧
  (∀ pg, 1 ≤ pg → pg < p.page → ftrOp pg ts ∈ l) ∧
  p.inFooter = false

/-- A step preserves the decoration invariant (for a fixed footer
timestamp). -/
def PreservesDecor (ts : String) (m : M) : Prop :=
  ∀ p l, Decor ts p l → Decor ts (m p).1 (l ++ (m p).2)

/-- A step never moves to an earlier page, never emits onto an earlier
page than the one it starts on, and keeps the footer flag clear. -/
def MonoM (m : M) : Prop :=
  ∀ p, p.inFooter = false →
    p.page ≤ ((m p).1).page ∧ ((m p).1).inFooter = false ∧
      ∀ op ∈ (m p).2, p.page ≤ op.pg

/-- Two steps agree on states and agree on output up to blanking of
timestamp fragments. -/
def SimM (f g : M) : Prop :=
  ∀ p, (f p).1 = (g p).1 ∧ (f p).2.map scrubOp = (g p).2.map scrubOp

/-- Hook bundles that agree up to timestamp fragments. -/
def SimHooks (h1 h2 : Hooks) : Prop :=
  h1.wrap = h2.wrap ∧ SimM h1.hdr h2.hdr ∧ SimM h1.ftr h2.ftr

/-- The page of a code-block line cell (a 4.5 mm row of the fixed
180 mm box at `x = 15`); `none` for any other primitive. -/
def codeLinePage (op : Op) : Option Nat :=
  match op with
  | .text pg x _ w h _ _ _ _ =>
      if x = 150 ∧ w = 1800 ∧ h = 45 then some pg else none
  | _ => none

/-- The box width of a wrapped `multi_cell` line; `none` for any other
primitive. -/
def wrapLineW (op : Op) : Option ℤ :=
  match op with
  | .text _ _ _ w _ _ _ a _ => if a = "J" then some w else none
  | _ => none

/-- A drawing state deep in a page: page 1, cursor at `y = 200` mm
(as after 183 mm of drawn content below the header), 77 mm above the
break trigger. -/
def lowPos : Pos := { initPos with page := 1, y := 2000 }

/-- A drawing state in the middle of a page: page 1, cursor at
`y = 100` mm. -/
def midPos : Pos := { initPos with page := 1, y := 1000 }

/-- A 30-line code listing (each line one character wide). -/
def thirtyLines : String := String.intercalate "\n" (List.replicate 30 "x")

/-- A fixed timestamp pair for concrete runs. -/
def nowX : Now := ⟨"February 1, 2026", "February 1, 2026 01:00 PM"⟩

/-- A 60-line code listing (each line one character wide). -/
def sixtyLines : String := String.intercalate "\n" (List.replicate 60 "x")

/-- A one-section document whose single code block overflows its page,
forcing one automatic page break in the middle of the block. -/
def docSplit : List Sect := [.blocks [.codeBlock sixtyLines]]

/-- The primitives a cover page drawn from the fresh backend state
emits before its purpose paragraph: header decoration of page 1, the
full-page background, the rules and title/metadata rows, the purpose
card fill and its heading — all on page 1. -/
def coverOps (now : Now) (t1 t2 ver : String) : List Op :=
  hdrOps 1 Active.headerTitle ++
  [Op.rect 1 0 0 2100 2970 BG_PRIMARY,
   Op.line 1 400 520 1700 520 ACCENT 20,
   Op.text 1 100 600 1900 140 ("Helvetica", "B", 300) TEXT_PRIMARY "C"
     [Piece.lit t1],
   Op.text 1 100 740 1900 140 ("Helvetica", "B", 300) TEXT_PRIMARY "C"
     [Piece.lit t2],
   Op.line 1 700 940 1400 940 ACCENT 5,
   Op.text 1 100 1040 1900 80 ("Helvetica", "", 120) ACCENT "C"
     [Piece.lit "AutoNateAI Learning Hub"],
   Op.text 1 100 1140 1900 80 ("Helvetica", "", 100) TEXT_SECONDARY "C"
     [Piece.lit "Last Updated: ", Piece.stamp now.date],
   Op.text 1 100 1240 1900 80 ("Helvetica", "I", 90) TEXT_MUTED "C"
     [Piece.lit ver],
   Op.rect 1 150 1620 1800 380 BG_CARD,
   Op.text 1 200 1660 1800 60 ("Helvetica", "B", 100) ACCENT ""
     [Piece.lit "Document Purpose"]]

@[simp] theorem runAll_nil : runAll [] = idM := rfl

@[simp] theorem runAll_cons (m : M) (ms : List M) :
    runAll (m :: ms) = seqM m (runAll ms) := rfl

theorem seqM_apply (f g : M) (p : Pos) :
    seqM f g p = ((g (f p).1).1, (f p).2 ++ (g (f p).1).2) := rfl

theorem seqM_assoc (f g h : M) :
    seqM (seqM f g) h = seqM f (seqM g h) := by
  funext p
  simp [seqM_apply]

theorem seqM_idM_right (f : M) : seqM f idM = f := by
  funext p
  simp [seqM_apply, idM]

theorem runAll_append (xs ys : List M) :
    runAll (xs ++ ys) = seqM (runAll xs) (runAll ys) := by
  induction xs with
  | nil =>
      funext p
      simp [runAll, seqM_apply, idM]
  | cons x xs ih =>
      simp only [List.cons_append, runAll_cons, ih, seqM_assoc]

/-- Run shape of the shared header override: it always stays on the
current page and emits exactly the page's three decoration
primitives. -/
theorem header_run (p : Pos) :
    Active.header p = (afterHeader p, hdrOps p.page Active.headerTitle) := by
  simp [Active.header, runAll, seqM, idM, cell, hk0, set_fill_color, rect,
    set_font, set_text_color, set_y, set_draw_color, set_line_width, line,
    ln, afterHeader, hdrOps, Pos.font, cellW, pageW, rMargin, lMargin,
    pageH, pageBreakTrigger]

/-- Run shape of the shared footer override when invoked by the backend
(with automatic page breaks disabled): it stays on the current page and
emits exactly the page's footer row. -/
theorem footer_run (ts : String) (p : Pos) (hf : p.inFooter = true) :
    Active.footer ts p = (afterFooter p, [ftrOp p.page ts]) := by
  simp [Active.footer, runAll, seqM, idM, cell, hk0, set_font,
    set_text_color, set_y, withPage, afterFooter, ftrOp, ftrContent, hf,
    Pos.font, cellW, pageW, rMargin, lMargin, pageH, pageBreakTrigger]

/-- Run shape of `dark_bg`: it emits the full-page background fill on
the current page. -/
theorem dark_bg_run (p : Pos) :
    Active.dark_bg p =
      ({ p with fillColor := BG_PRIMARY },
        [Op.rect p.page 0 0 2100 2970 BG_PRIMARY]) := by
  simp [Active.dark_bg, runAll, seqM, idM, set_fill_color, rect]

/-- Run shape of `add_page` with the active-mode hooks: footer of the
finished page (when one exists), fresh page with the cursor below the
header band, header decoration of the new page, style restored. -/
theorem add_page_run (wo : Font → ℤ → String → List String) (now : Now)
    (p : Pos) (hf : p.inFooter = false) :
    add_page (Active.hooks wo now) p =
      (afterPage p,
        (if 1 ≤ p.page then [ftrOp p.page now.long] else []) ++
          hdrOps (p.page + 1) Active.headerTitle) := by
  by_cases h1 : 1 ≤ p.page
  · simp [add_page, Active.hooks, h1,
      footer_run now.long { p with inFooter := true } rfl, header_run,
      afterFooter, afterHeader, afterPage, Pos.withStyle, Pos.style]
  · simp [add_page, Active.hooks, h1, header_run, afterHeader, afterPage,
      Pos.withStyle, Pos.style, hf]

/-- Run shape of the `output()` finalization with the active-mode
hooks: the footer of the last page is drawn. -/
theorem close_run (wo : Font → ℤ → String → List String) (now : Now)
    (p : Pos) (hf : p.inFooter = false) (h1 : 1 ≤ p.page) :
    close (Active.hooks wo now) p =
      (afterFooter p, [ftrOp p.page now.long]) := by
  simp [close, Active.hooks, h1,
    footer_run now.long { p with inFooter := true } rfl, afterFooter, hf]

/-- A `cell` whose row fits above the break trigger draws at the
current position and does not break the page. -/
theorem cell_fits (hk : Hooks) (w h : ℤ) (c : List Piece) (a : String)
    (nxt : Bool) (p : Pos) (hfit : p.y + h ≤ pageBreakTrigger) :
    cell hk w h c a nxt p =
      ((if nxt then { p with x := lMargin, y := p.y + h }
        else { p with x := p.x + cellW w p.x }),
        [Op.text p.page p.x p.y (cellW w p.x) h p.font p.textColor a c]) := by
  simp [cell, not_lt.mpr hfit]

/-- A `cell` whose row does not fit first breaks the page (footer,
fresh page, header), then draws the row at the top of the new page with
the abscissa preserved. -/
theorem cell_break (wo : Font → ℤ → String → List String) (now : Now)
    (w h : ℤ) (c : List Piece) (a : String) (nxt : Bool) (p : Pos)
    (hbr : pageBreakTrigger < p.y + h) (hf : p.inFooter = false) :
    cell (Active.hooks wo now) w h c a nxt p =
      ((if nxt then { afterPage p with x := lMargin, y := 170 + h }
        else { afterPage p with x := p.x + cellW w p.x }),
        ((if 1 ≤ p.page then [ftrOp p.page now.long] else []) ++
          hdrOps (p.page + 1) Active.headerTitle) ++
          [Op.text (p.page + 1) p.x 170 (cellW w p.x) h p.font
            p.textColor a c]) := by
  simp [cell, hbr, hf, add_page_run wo now p hf, afterPage, Pos.font]

/-- A `multi_cell` line that fits above the break trigger. -/
theorem mcLine_fits (hk : Hooks) (x0 w0 h : ℤ) (fill : Bool) (s : String)
    (p : Pos) (hfit : p.y + h ≤ pageBreakTrigger) :
    mcLine hk x0 w0 h fill s p =
      ({ p with y := p.y + h },
        (if fill then [Op.rect p.page x0 p.y w0 h p.fillColor] else []) ++
          [Op.text p.page x0 p.y w0 h p.font p.textColor "J"
            [Piece.lit s]]) := by
  simp [mcLine, not_lt.mpr hfit]

/-- Every primitive produced by `mcOps` lies on the given page. -/
theorem mcOps_pg (pg : Nat) (x0 w0 h : ℤ) (fill : Bool) (fc tc : Color)
    (fnt : Font) (y : ℤ) (ls : List String) :
    ∀ op ∈ mcOps pg x0 w0 h fill fc tc fnt y ls, op.pg = pg := by
  induction ls generalizing y with
  | nil => simp [mcOps]
  | cons s ss ih =>
      intro op hop
      simp only [mcOps, List.mem_append] at hop
      rcases hop with h' | h'
      · rcases h' with h' | h'
        · cases fill <;> simp_all [Op.pg]
        · simp_all [Op.pg]
      · exact ih (y + h) op h'

/-- The line loop of `multi_cell`, when all its lines fit above the
break trigger, advances the cursor by exactly `height × line count` and
draws the lines consecutively on the current page. -/
theorem mcLines_no_break (hk : Hooks) (x0 w0 h : ℤ) (fill : Bool)
    (ls : List String) (p : Pos) (hpos : 0 < h)
    (hfit : p.y + h * ls.length ≤ pageBreakTrigger) :
    mcLines hk x0 w0 h fill ls p =
      ({ p with y := p.y + h * ls.length },
        mcOps p.page x0 w0 h fill p.fillColor p.textColor p.font p.y ls) := by
  induction ls generalizing p with
  | nil => simp [mcLines, idM, mcOps]
  | cons s ss ih =>
      have hn : (0 : ℤ) ≤ h * ss.length := by positivity
      have hlen : ((s :: ss).length : ℤ) = (ss.length : ℤ) + 1 := by
        push_cast [List.length_cons]; ring
      have h1 : p.y + h ≤ pageBreakTrigger := by
        rw [hlen] at hfit; nlinarith
      have h2 : (p.y + h) + h * ss.length ≤ pageBreakTrigger := by
        rw [hlen] at hfit; nlinarith
      have ihy := ih { p with y := p.y + h } h2
      simp only [mcLines, seqM, mcLine_fits hk x0 w0 h fill s p h1, ihy]
      simp [mcOps, Pos.font, hlen]
      ring

/-- `multi_cell` when all wrapped lines fit above the break trigger:
the cursor ends at the left margin, `height × line count` below where
it started, and the lines are drawn consecutively on the current
page. -/
theorem multi_cell_no_break (hk : Hooks) (w h : ℤ) (text : String)
    (fill : Bool) (p : Pos) (hpos : 0 < h)
    (hfit : p.y + h * (splitLines hk p.font (cellW w p.x) text).length ≤
      pageBreakTrigger) :
    multi_cell hk w h text fill p =
      ({ p with x := lMargin, y := p.y +
          h * (splitLines hk p.font (cellW w p.x) text).length },
        mcOps p.page p.x (cellW w p.x) h fill p.fillColor p.textColor
          p.font p.y (splitLines hk p.font (cellW w p.x) text)) := by
  simp [multi_cell, mcLines_no_break hk p.x (cellW w p.x) h fill _ p hpos hfit]

/-- Run shape of `section_title` when its row fits: the cursor ends
18 mm below where it started (4 mm gap, 10 mm row, underline, 4 mm
gap). -/
theorem section_title_run (hk : Hooks) (t : String) (p : Pos)
    (hfit : p.y + 140 ≤ pageBreakTrigger) :
    Active.section_title hk t p =
      ({ p with
          x := 100
          y := p.y + 180
          fontFamily := "Helvetica"
          fontStyle := "B"
          fontSize := 140
          textColor := TEXT_PRIMARY
          drawColor := ACCENT
          lineWidth := 4 },
        [Op.text p.page 100 (p.y + 40) 1900 100 ("Helvetica", "B", 140)
          TEXT_PRIMARY "" [Piece.lit t],
         Op.line p.page 100 (p.y + 140) 850 (p.y + 140) ACCENT 4]) := by
  have hc : ¬((2770 : ℤ) < p.y + 40 + 100) := by
    have h' : p.y + 140 ≤ 2770 := hfit
    omega
  simp [Active.section_title, runAll, seqM, idM, set_font, set_text_color,
    ln, cell, withY, set_draw_color, set_line_width, line, hc, Pos.font,
    cellW, pageW, rMargin, lMargin, pageBreakTrigger]
  omega

/-- Run shape of `sub_title` when its row fits: the cursor ends 11 mm
below where it started (2 mm gap, 8 mm row, 1 mm gap). -/
theorem sub_title_run (hk : Hooks) (t : String) (p : Pos)
    (hfit : p.y + 100 ≤ pageBreakTrigger) :
    Active.sub_title hk t p =
      ({ p with
          x := 100
          y := p.y + 110
          fontFamily := "Helvetica"
          fontStyle := "B"
          fontSize := 110
          textColor := ACCENT },
        [Op.text p.page 100 (p.y + 20) 1900 80 ("Helvetica", "B", 110)
          ACCENT "" [Piece.lit t]]) := by
  have hc : ¬((2770 : ℤ) < p.y + 20 + 80) := by
    have h' : p.y + 100 ≤ 2770 := hfit
    omega
  simp [Active.sub_title, runAll, seqM, idM, set_font, set_text_color,
    ln, cell, hc, Pos.font, cellW, pageW, rMargin, lMargin,
    pageBreakTrigger]
  omega

/-- Run shape of `body_text` when all its wrapped lines fit: the cursor
ends `5.5 × line count + 2` mm below where it started, directly below
the drawn lines. -/
theorem body_text_run (hk : Hooks) (t : String) (p : Pos)
    (hfit : p.y + 55 * ((splitLines hk ("Helvetica", "", 100)
      (cellW 0 p.x) t).length : ℤ) ≤ pageBreakTrigger) :
    Active.body_text hk t p =
      ({ p with
          x := 100
          y := p.y + 55 * ((splitLines hk ("Helvetica", "", 100)
            (cellW 0 p.x) t).length : ℤ) + 20
          fontFamily := "Helvetica"
          fontStyle := ""
          fontSize := 100
          textColor := TEXT_SECONDARY },
        mcOps p.page p.x (cellW 0 p.x) 55 false p.fillColor TEXT_SECONDARY
          ("Helvetica", "", 100) p.y
          (splitLines hk ("Helvetica", "", 100) (cellW 0 p.x) t)) := by
  have hm := multi_cell_no_break hk 0 55 t false
    { p with
      fontFamily := "Helvetica"
      fontStyle := ""
      fontSize := 100
      textColor := TEXT_SECONDARY }
    (by norm_num) (by simpa [Pos.font] using hfit)
  simp [Active.body_text, runAll, seqM, idM, set_font, set_text_color,
    ln, hm, Pos.font, lMargin]

/-- Run shape of `bullet` when the marker row and all wrapped lines
fit: the marker sits at the entry abscissa plus the indent, the text
box begins 6 mm after the marker and extends to the right margin, and
the cursor ends `5.5 × line count + 1` mm below where it started. -/
theorem bullet_run (hk : Hooks) (t : String) (ind : ℤ) (p : Pos)
    (hrow : p.y + 55 ≤ pageBreakTrigger)
    (hfit : p.y + 55 * ((splitLines hk ("Helvetica", "", 100)
      (cellW 0 (p.x + ind + 60)) t).length : ℤ) ≤ pageBreakTrigger) :
    Active.bullet hk t ind p =
      ({ p with
          x := 100
          y := p.y + 55 * ((splitLines hk ("Helvetica", "", 100)
            (cellW 0 (p.x + ind + 60)) t).length : ℤ) + 10
          fontFamily := "Helvetica"
          fontStyle := ""
          fontSize := 100
          textColor := TEXT_SECONDARY },
        Op.text p.page (p.x + ind) p.y 60 55 ("Helvetica", "", 100)
            ACCENT "" [Piece.lit ">"] ::
          mcOps p.page (p.x + ind + 60) (cellW 0 (p.x + ind + 60)) 55
            false p.fillColor TEXT_SECONDARY ("Helvetica", "", 100) p.y
            (splitLines hk ("Helvetica", "", 100)
              (cellW 0 (p.x + ind + 60)) t)) := by
  have hc : ¬((2770 : ℤ) < p.y + 55) := by
    have h' : p.y + 55 ≤ 2770 := hrow
    omega
  have hm := multi_cell_no_break hk 0 55 t false
    { p with
      x := p.x + ind + 60
      fontFamily := "Helvetica"
      fontStyle := ""
      fontSize := 100
      textColor := TEXT_SECONDARY }
    (by norm_num) (by simpa [Pos.font] using hfit)
  simp [Active.bullet, runAll, seqM, idM, set_font, set_text_color,
    set_x, cell, hc, hm, Pos.font, cellW, pageW, rMargin, lMargin, ln,
    pageBreakTrigger]

/-- Run shape of `code_block` when all its lines fit: one filled line
cell per code line at 4.5 mm line height on the fixed 180 mm box
starting at `x = 15`, the cursor ending `4.5 × line count + 3` mm below
where it started. -/
theorem code_block_run (hk : Hooks) (t : String) (p : Pos)
    (hfit : p.y + 45 * ((splitLines hk ("Courier", "", 85) 1800
      t).length : ℤ) ≤ pageBreakTrigger) :
    Active.code_block hk t p =
      ({ p with
          x := 100
          y := p.y + 45 * ((splitLines hk ("Courier", "", 85) 1800
            t).length : ℤ) + 30
          fontFamily := "Courier"
          fontStyle := ""
          fontSize := 85
          textColor := CODE_TEXT
          fillColor := BG_CODE },
        mcOps p.page 150 1800 45 true BG_CODE CODE_TEXT
          ("Courier", "", 85) p.y
          (splitLines hk ("Courier", "", 85) 1800 t)) := by
  have hm := multi_cell_no_break hk 1800 45 t true
    { p with
      x := 150
      fontFamily := "Courier"
      fontStyle := ""
      fontSize := 85
      textColor := CODE_TEXT
      fillColor := BG_CODE }
    (by norm_num) (by simpa [Pos.font, cellW] using hfit)
  simp [Active.code_block, runAll, seqM, idM, set_font, set_text_color,
    set_fill_color, set_x, ln, hm, Pos.font, cellW, lMargin]

/-- Run shape of `status_badge` for a status other than `"complete"`
and `"in-progress"`, when its row fits: the muted `[PLANNED]` badge row,
the cursor ending 7 mm below where it started. -/
theorem status_badge_run_other (hk : Hooks) (label status : String)
    (p : Pos) (hfit : p.y + 60 ≤ pageBreakTrigger)
    (hs1 : status ≠ "complete") (hs2 : status ≠ "in-progress") :
    Active.status_badge hk label status p =
      ({ p with
          x := 100
          y := p.y + 70
          fontFamily := "Helvetica"
          fontStyle := "B"
          fontSize := 90
          textColor := TEXT_MUTED },
        [Op.text p.page p.x p.y (cellW 0 p.x) 60 ("Helvetica", "B", 90)
          TEXT_MUTED ""
          [Piece.lit ("  " ++ label ++ "  " ++ "[PLANNED]")]]) := by
  have hc : ¬((2770 : ℤ) < p.y + 60) := by
    have h' : p.y + 60 ≤ 2770 := hfit
    omega
  simp [Active.status_badge, runAll, seqM, idM, set_font, set_text_color,
    cell, hc, hs1, hs2, Pos.font, ln, lMargin, pageBreakTrigger]
  omega

/-- Run shape of the feed script's header override (same geometry as
the active-mode one, its own title string). -/
theorem feed_header_run (p : Pos) :
    Feed.header p = (afterHeader p, hdrOps p.page Feed.headerTitle) := by
  simp [Feed.header, runAll, seqM, idM, cell, hk0, set_fill_color, rect,
    set_font, set_text_color, set_y, set_draw_color, set_line_width, line,
    ln, afterHeader, hdrOps, Pos.font, cellW, pageW, rMargin, lMargin,
    pageH, pageBreakTrigger]

/-- The cursor advance of `status_badge` is 7 mm for every status
value (all three color branches share the same geometry). -/
theorem status_badge_y (hk : Hooks) (label status : String) (p : Pos)
    (hfit : p.y + 60 ≤ pageBreakTrigger) :
    (Active.status_badge hk label status p).1.y = p.y + 70 := by
  have hc : ¬((2770 : ℤ) < p.y + 60) := by
    have h' : p.y + 60 ≤ 2770 := hfit
    omega
  by_cases hs1 : status = "complete" <;>
    by_cases hs2 : status = "in-progress" <;>
      simp [Active.status_badge, runAll, seqM, idM, set_font,
        set_text_color, cell, hc, hs1, hs2, ln, lMargin,
        pageBreakTrigger] <;>
      omega

/-- C1 (amended): a CodeBlock whose computed height
`line_count × 4.5 mm` fits into the remaining space is drawn as exactly
`line_count` consecutive filled line cells spanning exactly that height
on the current page (no page break), and the cursor advances by the
height plus the 3 mm trailing gap.  (When the block overflows the
remaining space, the backend splits it at a line boundary instead; see
the counterexample.) -/
theorem C1_code_block_single_block (hk : Hooks) (t : String) (p : Pos)
    (hfit : p.y + 45 * ((splitLines hk ("Courier", "", 85) 1800
      t).length : ℤ) ≤ pageBreakTrigger) :
    (Active.code_block hk t p).1.y =
      p.y + 45 * ((splitLines hk ("Courier", "", 85) 1800 t).length :
        ℤ) + 30 ∧
    (Active.code_block hk t p).2 =
      mcOps p.page 150 1800 45 true BG_CODE CODE_TEXT ("Courier", "", 85)
        p.y (splitLines hk ("Courier", "", 85) 1800 t) ∧
    ∀ op ∈ (Active.code_block hk t p).2, op.pg = p.page := by
  rw [code_block_run hk t p hfit]
  exact ⟨rfl, rfl, mcOps_pg p.page 150 1800 45 true BG_CODE CODE_TEXT
    ("Courier", "", 85) p.y _⟩

/-- Witness for the C1 theorem at a concrete two-line code block. -/
theorem C1_code_block_single_block_witness :
    (midPos.y + 45 * ((splitLines (Active.hooks noWrap nowX)
        ("Courier", "", 85) 1800 "ab\ncd").length : ℤ) ≤
      pageBreakTrigger) ∧
    ((Active.code_block (Active.hooks noWrap nowX) "ab\ncd" midPos).1.y =
      midPos.y + 45 * ((splitLines (Active.hooks noWrap nowX)
        ("Courier", "", 85) 1800 "ab\ncd").length : ℤ) + 30 ∧
    (Active.code_block (Active.hooks noWrap nowX) "ab\ncd" midPos).2 =
      mcOps midPos.page 150 1800 45 true BG_CODE CODE_TEXT
        ("Courier", "", 85) midPos.y
        (splitLines (Active.hooks noWrap nowX) ("Courier", "", 85) 1800
          "ab\ncd") ∧
    ∀ op ∈ (Active.code_block (Active.hooks noWrap nowX) "ab\ncd"
      midPos).2, op.pg = midPos.page) :=
  ⟨by decide,
    C1_code_block_single_block (Active.hooks noWrap nowX) "ab\ncd" midPos
      (by decide)⟩

/-- C1 counterexample: a 30-line code block at `y = 200` mm needs
135 mm but only 77 mm remain; the backend does NOT move the whole block
to a fresh page — it draws code lines on page 1 AND on page 2, splitting
the block across the page boundary. -/
theorem C1_code_block_split_counterexample :
    (pageBreakTrigger - lowPos.y <
      45 * ((splitLines (Active.hooks noWrap nowX) ("Courier", "", 85)
        1800 thirtyLines).length : ℤ)) ∧
    1 ∈ (Active.code_block (Active.hooks noWrap nowX) thirtyLines
      lowPos).2.filterMap codeLinePage ∧
    2 ∈ (Active.code_block (Active.hooks noWrap nowX) thirtyLines
      lowPos).2.filterMap codeLinePage :=
  ⟨by decide, by decide, by decide⟩

/-- C3: every block helper leaves the vertical cursor exactly at the
pre-draw ordinate plus the block's drawn extent plus its fixed trailing
gap, provided the block fits in the remaining space (the drawn extent
includes the helper's fixed leading gap where it has one):
`section_title` 4+10+4 mm, `sub_title` 2+8+1 mm, `body_text`
5.5·lines+2 mm, `bullet` 5.5·lines+1 mm, `code_block` 4.5·lines+3 mm,
`status_badge` 6+1 mm. -/
theorem C3_cursor_advance (hk : Hooks) (p : Pos) :
    (∀ t, p.y + 140 ≤ pageBreakTrigger →
      (Active.section_title hk t p).1.y = p.y + 40 + 100 + 40) ∧
    (∀ t, p.y + 100 ≤ pageBreakTrigger →
      (Active.sub_title hk t p).1.y = p.y + 20 + 80 + 10) ∧
    (∀ t, p.y + 55 * ((splitLines hk ("Helvetica", "", 100) (cellW 0 p.x)
        t).length : ℤ) ≤ pageBreakTrigger →
      (Active.body_text hk t p).1.y =
        p.y + 55 * ((splitLines hk ("Helvetica", "", 100) (cellW 0 p.x)
          t).length : ℤ) + 20) ∧
    (∀ t ind, p.y + 55 ≤ pageBreakTrigger →
      p.y + 55 * ((splitLines hk ("Helvetica", "", 100)
        (cellW 0 (p.x + ind + 60)) t).length : ℤ) ≤ pageBreakTrigger →
      (Active.bullet hk t ind p).1.y =
        p.y + 55 * ((splitLines hk ("Helvetica", "", 100)
          (cellW 0 (p.x + ind + 60)) t).length : ℤ) + 10) ∧
    (∀ t, p.y + 45 * ((splitLines hk ("Courier", "", 85) 1800 t).length :
        ℤ) ≤ pageBreakTrigger →
      (Active.code_block hk t p).1.y =
        p.y + 45 * ((splitLines hk ("Courier", "", 85) 1800 t).length :
          ℤ) + 30) ∧
    (∀ label status, p.y + 60 ≤ pageBreakTrigger →
      (Active.status_badge hk label status p).1.y = p.y + 60 + 10) := by
  refine ⟨fun t h => ?_, fun t h => ?_, fun t h => ?_,
    fun t ind h1 h2 => ?_, fun t h => ?_, fun label status h => ?_⟩
  · rw [section_title_run hk t p h]; simp; omega
  · rw [sub_title_run hk t p h]; simp; omega
  · rw [body_text_run hk t p h]
  · rw [bullet_run hk t ind p h1 h2]
  · rw [code_block_run hk t p h]
  · rw [status_badge_y hk label status p h]; omega

/-- Witness for the C3 theorem at a concrete mid-page state. -/
theorem C3_cursor_advance_witness :
    ((midPos.y + 140 ≤ pageBreakTrigger) ∧
      (Active.section_title hk0 "T" midPos).1.y =
        midPos.y + 40 + 100 + 40) ∧
    ((midPos.y + 60 ≤ pageBreakTrigger) ∧
      (Active.status_badge hk0 "L" "planned" midPos).1.y =
        midPos.y + 60 + 10) ∧
    ((midPos.y + 55 * ((splitLines hk0 ("Helvetica", "", 100)
        (cellW 0 midPos.x) "hello world").length : ℤ) ≤
        pageBreakTrigger) ∧
      (Active.body_text hk0 "hello world" midPos).1.y =
        midPos.y + 55 * ((splitLines hk0 ("Helvetica", "", 100)
          (cellW 0 midPos.x) "hello world").length : ℤ) + 20) :=
  ⟨⟨by decide, (C3_cursor_advance hk0 midPos).1 "T" (by decide)⟩,
    ⟨by decide, (C3_cursor_advance hk0 midPos).2.2.2.2.2 "L" "planned"
      (by decide)⟩,
    ⟨by decide, (C3_cursor_advance hk0 midPos).2.2.1 "hello world"
      (by decide)⟩⟩

/-- C8 (amended): the bullet marker is drawn at the left margin plus
the indent (when the cursor is at the left margin), the wrapped text
box begins 6 mm after the marker (directly after the fixed-width marker
cell) and extends to the right margin, so its wrap width is the
printable width minus the indent minus 6 mm, and every continuation
line starts at the text box's abscissa — 6 mm right of the marker, not
at the marker itself. -/
theorem C8_bullet_layout (hk : Hooks) (t : String) (ind : ℤ) (p : Pos)
    (hx : p.x = lMargin) (hrow : p.y + 55 ≤ pageBreakTrigger)
    (hfit : p.y + 55 * ((splitLines hk ("Helvetica", "", 100)
      (cellW 0 (p.x + ind + 60)) t).length : ℤ) ≤ pageBreakTrigger) :
    (Active.bullet hk t ind p).2 =
      Op.text p.page (lMargin + ind) p.y 60 55 ("Helvetica", "", 100)
        ACCENT "" [Piece.lit ">"] ::
      mcOps p.page (lMargin + ind + 60)
        (pageW - rMargin - (lMargin + ind + 60)) 55 false p.fillColor
        TEXT_SECONDARY ("Helvetica", "", 100) p.y
        (splitLines hk ("Helvetica", "", 100)
          (cellW 0 (p.x + ind + 60)) t) := by
  rw [bullet_run hk t ind p hrow hfit, hx]
  simp [cellW, pageW, rMargin, lMargin]

/-- Witness for the C8 theorem at a concrete two-line bullet with the
default 15 mm indent. -/
theorem C8_bullet_layout_witness :
    (midPos.x = lMargin ∧ midPos.y + 55 ≤ pageBreakTrigger ∧
      midPos.y + 55 * ((splitLines (Active.hooks noWrap nowX)
        ("Helvetica", "", 100) (cellW 0 (midPos.x + 150 + 60))
        "abc\ndef").length : ℤ) ≤ pageBreakTrigger) ∧
    (Active.bullet (Active.hooks noWrap nowX) "abc\ndef" 150 midPos).2 =
      Op.text midPos.page (lMargin + 150) midPos.y 60 55
        ("Helvetica", "", 100) ACCENT "" [Piece.lit ">"] ::
      mcOps midPos.page (lMargin + 150 + 60)
        (pageW - rMargin - (lMargin + 150 + 60)) 55 false
        midPos.fillColor TEXT_SECONDARY ("Helvetica", "", 100) midPos.y
        (splitLines (Active.hooks noWrap nowX) ("Helvetica", "", 100)
          (cellW 0 (midPos.x + 150 + 60)) "abc\ndef") :=
  ⟨⟨by decide, by decide, by decide⟩,
    C8_bullet_layout (Active.hooks noWrap nowX) "abc\ndef" 150 midPos
      (by decide) (by decide) (by decide)⟩

/-- C8 counterexample: for a two-line bullet at the left margin with
the default 15 mm indent, the marker sits at `x = 25` but the
continuation line starts at `x = 31` (marker + 6 mm), not at the
marker's position, and the wrap width is 169 mm — no wrapped line has
the claimed width `printable − indent = 175` mm. -/
theorem C8_bullet_counterexample :
    (Active.bullet (Active.hooks noWrap nowX) "abc\ndef" 150 midPos).2 =
      [Op.text 1 250 1000 60 55 ("Helvetica", "", 100) ACCENT ""
        [Piece.lit ">"],
       Op.text 1 310 1000 1690 55 ("Helvetica", "", 100) TEXT_SECONDARY
        "J" [Piece.lit "abc"],
       Op.text 1 310 1055 1690 55 ("Helvetica", "", 100) TEXT_SECONDARY
        "J" [Piece.lit "def"]] ∧
    ∀ op ∈ (Active.bullet (Active.hooks noWrap nowX) "abc\ndef" 150
      midPos).2, wrapLineW op ≠ some (pageW - rMargin - lMargin - 150) :=
  ⟨by decide, by decide⟩

/-- C9: the two generators' layout classes are one engine defined
twice: all shared drawing helpers of the two `FeaturePDF` classes are
extensionally equal functions, and the two headers emit identical
primitives up to replacing the one static title string. -/
theorem C9_one_engine_applied_twice :
    Feed.section_title = Active.section_title ∧
    Feed.sub_title = Active.sub_title ∧
    Feed.body_text = Active.body_text ∧
    Feed.bullet = Active.bullet ∧
    Feed.code_block = Active.code_block ∧
    Feed.status_badge = Active.status_badge ∧
    Feed.dark_bg = Active.dark_bg ∧
    Feed.footer = Active.footer ∧
    ∀ p, Feed.header p = ((Active.header p).1,
      (Active.header p).2.map
        (retitleOp Active.headerTitle Feed.headerTitle)) := by
  refine ⟨rfl, rfl, rfl, rfl, rfl, rfl, rfl, rfl, fun p => ?_⟩
  rw [feed_header_run, header_run]
  simp [hdrOps, retitleOp]

/-- C10: for every status string other than `"complete"` and
`"in-progress"` — any string at all, not only `"planned"` —
`status_badge` renders the `[PLANNED]` badge in the muted text color
(the operation is total: the final `else` branch handles every other
value). -/
theorem C10_status_badge_total (hk : Hooks) (label status : String)
    (p : Pos) (hfit : p.y + 60 ≤ pageBreakTrigger)
    (hs1 : status ≠ "complete") (hs2 : status ≠ "in-progress") :
    Active.status_badge hk label status p =
      ({ p with
          x := 100
          y := p.y + 70
          fontFamily := "Helvetica"
          fontStyle := "B"
          fontSize := 90
          textColor := TEXT_MUTED },
        [Op.text p.page p.x p.y (cellW 0 p.x) 60 ("Helvetica", "B", 90)
          TEXT_MUTED ""
          [Piece.lit ("  " ++ label ++ "  " ++ "[PLANNED]")]]) :=
  status_badge_run_other hk label status p hfit hs1 hs2

/-- Witness for the C10 theorem at the empty status string. -/
theorem C10_status_badge_total_witness :
    (midPos.y + 60 ≤ pageBreakTrigger ∧ "" ≠ "complete" ∧
      "" ≠ "in-progress") ∧
    Active.status_badge hk0 "Feed filters" "" midPos =
      ({ midPos with
          x := 100
          y := midPos.y + 70
          fontFamily := "Helvetica"
          fontStyle := "B"
          fontSize := 90
          textColor := TEXT_MUTED },
        [Op.text midPos.page midPos.x midPos.y (cellW 0 midPos.x) 60
          ("Helvetica", "B", 90) TEXT_MUTED ""
          [Piece.lit ("  " ++ "Feed filters" ++ "  " ++ "[PLANNED]")]]) :=
  ⟨⟨by decide, by decide, by decide⟩,
    C10_status_badge_total hk0 "Feed filters" "" midPos (by decide)
      (by decide) (by decide)⟩

/-- Header decoration never matches a checklist glyph or label cell. -/
theorem pick_hdrOps (pg : Nat) (t : String) :
    (hdrOps pg t).filterMap pick = [] := by
  simp [hdrOps, pick]

/-- Footer decoration never matches a checklist glyph or label cell. -/
theorem pick_ftrOp (pg : Nat) (ts : String) : pick (ftrOp pg ts) = none := by
  simp [ftrOp, pick]

/-- The decoration emitted by a page break contributes no checklist
glyph or label cells. -/
theorem pick_add_page (wo : Font → ℤ → String → List String) (now : Now)
    (p : Pos) (hf : p.inFooter = false) :
    ((add_page (Active.hooks wo now) p).2).filterMap pick = [] := by
  rw [add_page_run wo now p hf]
  by_cases h1 : 1 ≤ p.page <;>
    simp [h1, pick_ftrOp, pick_hdrOps]

/-- One iteration of the checklist loop draws exactly its row's glyph
cell (glyph and color chosen by the done-flag) followed by its label
cell, whether or not a page break intervenes, and leaves the footer
flag clear. -/
theorem checklist_row_pick (wo : Font → ℤ → String → List String)
    (now : Now) (label : String) (done : Bool) (p : Pos)
    (hf : p.inFooter = false) :
    (((checklist_row (Active.hooks wo now) label done p).2).filterMap
        pick = expectedRow label done) ∧
    ((checklist_row (Active.hooks wo now) label done p).1).inFooter =
      false := by
  by_cases hb : pageBreakTrigger < p.y + 60
  · have hb' : (2770 : ℤ) < p.y + 60 := hb
    cases done <;>
      by_cases h1 : 1 ≤ p.page <;>
      simp [checklist_row, runAll, seqM, idM, set_font, set_text_color,
        cell_break, cell_fits, pageBreakTrigger, hb', hf, h1, afterPage,
        expectedRow, pick, flatten, Piece.render, Pos.font, ftrOp,
        ftrContent, hdrOps, List.filterMap_append, List.filterMap_cons]
  · have hnb : p.y + 60 ≤ (2770 : ℤ) := by
      have h' : ¬((2770 : ℤ) < p.y + 60) := hb
      omega
    cases done <;>
      simp [checklist_row, runAll, seqM, idM, set_font, set_text_color,
        cell_fits, pageBreakTrigger, hnb, hf, expectedRow, pick, flatten,
        Piece.render, Pos.font, List.filterMap_append]

/-- The whole checklist loop renders exactly its rows' glyph and label
cells, in order, regardless of where page breaks fall, and leaves the
footer flag clear. -/
theorem checklist_loop_pick (wo : Font → ℤ → String → List String)
    (now : Now) (rows : List (String × Bool)) (p : Pos)
    (hf : p.inFooter = false) :
    (((checklist_loop (Active.hooks wo now) rows p).2).filterMap pick =
      rows.flatMap (fun r => expectedRow r.1 r.2)) ∧
    ((checklist_loop (Active.hooks wo now) rows p).1).inFooter =
      false := by
  induction rows generalizing p with
  | nil => simp [checklist_loop, runAll, idM, hf]
  | cons r rs ih =>
      obtain ⟨h1, h2⟩ := checklist_row_pick wo now r.1 r.2 p hf
      obtain ⟨h3, h4⟩ :=
        ih (checklist_row (Active.hooks wo now) r.1 r.2 p).1 h2
      have e : checklist_loop (Active.hooks wo now) (r :: rs) p =
          seqM (checklist_row (Active.hooks wo now) r.1 r.2)
            (checklist_loop (Active.hooks wo now) rs) p := rfl
      rw [e, seqM_apply]
      exact ⟨by simp [List.filterMap_append, h1, h3], h4⟩

/-- C7: for every ChecklistRow of the verification checklist the
rendered row is the fixed-width check glyph followed by the label, the
glyph and its color determined by the row's done-flag (`[x]` in the
success color when done, `[ ]` in the danger color when not), and every
row of the input list is rendered in order with its matching glyph. -/
theorem C7_checklist_rows (wo : Font → ℤ → String → List String)
    (now : Now) (rows : List (String × Bool)) (p : Pos)
    (hf : p.inFooter = false) :
    ((checklist_loop (Active.hooks wo now) rows p).2).filterMap pick =
      rows.flatMap (fun r => expectedRow r.1 r.2) :=
  (checklist_loop_pick wo now rows p hf).1

/-- Witness for the C7 theorem on the actual 18-row checklist of the
active-mode report. -/
theorem C7_checklist_rows_witness :
    midPos.inFooter = false ∧
    ((checklist_loop (Active.hooks noWrap nowX) activeChecklist
        midPos).2).filterMap pick =
      activeChecklist.flatMap (fun r => expectedRow r.1 r.2) :=
  ⟨by decide,
    C7_checklist_rows noWrap nowX activeChecklist midPos (by decide)⟩

/-- Membership facts of the decoration invariant survive appending
further output. -/
theorem decor_mono (ts : String) (p : Pos) (l l' : List Op)
    (hd : Decor ts p l) : Decor ts p (l ++ l') := by
  obtain ⟨h1, h2, h3⟩ := hd
  exact ⟨fun pg a b => ⟨List.mem_append_left _ (h1 pg a b).1,
      List.mem_append_left _ (h1 pg a b).2⟩,
    fun pg a b => List.mem_append_left _ (h2 pg a b), h3⟩

/-- A step that changes neither the page nor the footer flag preserves
the decoration invariant. -/
theorem pres_of_stable (ts : String) (m : M)
    (hs : ∀ p, ((m p).1).page = p.page ∧ ((m p).1).inFooter = p.inFooter) :
    PreservesDecor ts m := by
  intro p l hd
  obtain ⟨h1, h2, h3⟩ := hd
  refine ⟨?_, ?_, ?_⟩
  · intro pg a b
    rw [(hs p).1] at b
    exact ⟨List.mem_append_left _ (h1 pg a b).1,
      List.mem_append_left _ (h1 pg a b).2⟩
  · intro pg a b
    rw [(hs p).1] at b
    exact List.mem_append_left _ (h2 pg a b)
  · rw [(hs p).2]; exact h3

/-- Sequencing preserves the decoration invariant. -/
theorem pres_seqM (ts : String) (f g : M) (hf : PreservesDecor ts f)
    (hg : PreservesDecor ts g) : PreservesDecor ts (seqM f g) := by
  intro p l hd
  have h2 := hg (f p).1 (l ++ (f p).2) (hf p l hd)
  rw [seqM_apply]
  simpa [List.append_assoc] using h2

/-- Running a list of invariant-preserving steps preserves the
decoration invariant. -/
theorem pres_runAll (ts : String) (ms : List M)
    (h : ∀ m ∈ ms, PreservesDecor ts m) :
    PreservesDecor ts (runAll ms) := by
  induction ms with
  | nil =>
      intro p l hd
      simpa [runAll, idM] using hd
  | cons m ms ih =>
      rw [runAll_cons]
      exact pres_seqM _ _ _ (h m (by simp))
        (ih fun m' hm' => h m' (by simp [hm']))

/-- `add_page` preserves the decoration invariant: it decorates the
page it finishes with its footer and the page it starts with the
header band. -/
theorem pres_add_page (wo : Font → ℤ → String → List String) (now : Now) :
    PreservesDecor now.long (add_page (Active.hooks wo now)) := by
  intro p l hd
  obtain ⟨h1, h2, h3⟩ := hd
  rw [add_page_run wo now p h3]
  refine ⟨?_, ?_, rfl⟩
  · intro pg ha hb
    simp only [afterPage] at hb
    by_cases hpg : pg ≤ p.page
    · exact ⟨List.mem_append_left _ (h1 pg ha hpg).1,
        List.mem_append_left _ (h1 pg ha hpg).2⟩
    · have he : pg = p.page + 1 := by omega
      subst he
      constructor <;>
        · apply List.mem_append_right
          simp [hdrOps]
  · intro pg ha hb
    simp only [afterPage] at hb
    by_cases hpg : pg < p.page
    · exact List.mem_append_left _ (h2 pg ha hpg)
    · have he : pg = p.page := by omega
      subst he
      apply List.mem_append_right
      apply List.mem_append_left
      simp [ha]

/-- `cell` preserves the decoration invariant (whether or not it breaks
the page). -/
theorem pres_cell (wo : Font → ℤ → String → List String) (now : Now)
    (w h : ℤ) (c : List Piece) (a : String) (nxt : Bool) :
    PreservesDecor now.long (cell (Active.hooks wo now) w h c a nxt) := by
  intro p l hd
  by_cases hb : pageBreakTrigger < p.y + h
  · rw [cell_break wo now w h c a nxt p hb hd.2.2]
    have hap := pres_add_page wo now p l hd
    rw [add_page_run wo now p hd.2.2] at hap
    have hap2 := decor_mono now.long _ _
      [Op.text (p.page + 1) p.x 170 (cellW w p.x) h p.font p.textColor a c]
      hap
    obtain ⟨g1, g2, _⟩ := hap2
    cases nxt <;>
      exact ⟨fun pg x y => by
          have := g1 pg x (by simpa [afterPage] using y)
          simpa [hdrBandOn, List.append_assoc] using this,
        fun pg x y => by
          have := g2 pg x (by simpa [afterPage] using y)
          simpa [List.append_assoc] using this,
        rfl⟩
  · rw [cell_fits _ w h c a nxt p (by omega)]
    have := decor_mono now.long p l
      [Op.text p.page p.x p.y (cellW w p.x) h p.font p.textColor a c] hd
    obtain ⟨g1, g2, g3⟩ := this
    cases nxt <;> exact ⟨g1, g2, g3⟩

/-- One `multi_cell` line preserves the decoration invariant. -/
theorem pres_mcLine (wo : Font → ℤ → String → List String) (now : Now)
    (x0 w0 h : ℤ) (fill : Bool) (str : String) :
    PreservesDecor now.long (mcLine (Active.hooks wo now) x0 w0 h fill str) := by
  intro p l hd
  by_cases hb : pageBreakTrigger < p.y + h
  · have hap := pres_add_page wo now p l hd
    have hap2 := decor_mono now.long _ _
      ((if fill then [Op.rect ((add_page (Active.hooks wo now) p).1.page)
          x0 170 w0 h p.fillColor] else []) ++
        [Op.text ((add_page (Active.hooks wo now) p).1.page) x0 170 w0 h
          p.font p.textColor "J" [Piece.lit str]]) hap
    rw [add_page_run wo now p hd.2.2] at hap2
    obtain ⟨g1, g2, _⟩ := hap2
    simp only [mcLine, hb, hd.2.2, if_pos, true_and,
      add_page_run wo now p hd.2.2, afterPage]
    refine ⟨fun pg x y => ?_, fun pg x y => ?_, rfl⟩
    · have := g1 pg x (by simpa [afterPage] using y)
      simpa [hdrBandOn, Pos.font, afterPage, add_page_run wo now p hd.2.2,
        List.append_assoc] using this
    · have := g2 pg x (by simpa [afterPage] using y)
      simpa [Pos.font, afterPage, add_page_run wo now p hd.2.2,
        List.append_assoc] using this
  · rw [mcLine_fits _ x0 w0 h fill str p (by omega)]
    have := decor_mono now.long p l
      ((if fill then [Op.rect p.page x0 p.y w0 h p.fillColor] else []) ++
        [Op.text p.page x0 p.y w0 h p.font p.textColor "J"
          [Piece.lit str]]) hd
    exact this

/-- The `multi_cell` line loop preserves the decoration invariant. -/
theorem pres_mcLines (wo : Font → ℤ → String → List String) (now : Now)
    (x0 w0 h : ℤ) (fill : Bool) (ls : List String) :
    PreservesDecor now.long (mcLines (Active.hooks wo now) x0 w0 h fill ls) := by
  induction ls with
  | nil =>
      intro p l hd
      simpa [mcLines, idM] using hd
  | cons str ss ih =>
      exact pres_seqM _ _ _ (pres_mcLine wo now x0 w0 h fill str) ih

/-- `multi_cell` preserves the decoration invariant. -/
theorem pres_multi_cell (wo : Font → ℤ → String → List String) (now : Now)
    (w h : ℤ) (t : String) (fill : Bool) :
    PreservesDecor now.long (multi_cell (Active.hooks wo now) w h t fill) := by
  intro p l hd
  have hm := pres_mcLines wo now p.x (cellW w p.x) h fill
    (splitLines (Active.hooks wo now) p.font (cellW w p.x) t) p l hd
  obtain ⟨g1, g2, g3⟩ := hm
  exact ⟨g1, g2, g3⟩

/-- Reading the cursor ordinate preserves the invariant if every branch
does. -/
theorem pres_withY (ts : String) (f : ℤ → M)
    (h : ∀ y, PreservesDecor ts (f y)) : PreservesDecor ts (withY f) :=
  fun p l hd => h p.y p l hd

/-- Every style/cursor primitive preserves the invariant. -/
theorem pres_set_font (ts : String) (fam sty : String) (sz : ℤ) :
    PreservesDecor ts (set_font fam sty sz) :=
  pres_of_stable ts _ (fun _ => ⟨rfl, rfl⟩)

theorem pres_set_text_color (ts : String) (c : Color) :
    PreservesDecor ts (set_text_color c) :=
  pres_of_stable ts _ (fun _ => ⟨rfl, rfl⟩)

theorem pres_set_fill_color (ts : String) (c : Color) :
    PreservesDecor ts (set_fill_color c) :=
  pres_of_stable ts _ (fun _ => ⟨rfl, rfl⟩)

theorem pres_set_draw_color (ts : String) (c : Color) :
    PreservesDecor ts (set_draw_color c) :=
  pres_of_stable ts _ (fun _ => ⟨rfl, rfl⟩)

theorem pres_set_line_width (ts : String) (wd : ℤ) :
    PreservesDecor ts (set_line_width wd) :=
  pres_of_stable ts _ (fun _ => ⟨rfl, rfl⟩)

theorem pres_set_x (ts : String) (v : ℤ) : PreservesDecor ts (set_x v) :=
  pres_of_stable ts _ (fun _ => ⟨rfl, rfl⟩)

theorem pres_set_y (ts : String) (v : ℤ) : PreservesDecor ts (set_y v) :=
  pres_of_stable ts _ (fun _ => ⟨rfl, rfl⟩)

theorem pres_set_xy (ts : String) (vx vy : ℤ) :
    PreservesDecor ts (set_xy vx vy) :=
  pres_seqM ts _ _ (pres_set_y ts vy) (pres_set_x ts vx)

theorem pres_ln (ts : String) (h : ℤ) : PreservesDecor ts (ln h) :=
  pres_of_stable ts _ (fun _ => ⟨rfl, rfl⟩)

theorem pres_rect (ts : String) (x y w h : ℤ) :
    PreservesDecor ts (rect x y w h) := by
  intro p l hd
  exact decor_mono ts p l _ hd

theorem pres_line (ts : String) (x1 y1 x2 y2 : ℤ) :
    PreservesDecor ts (line x1 y1 x2 y2) := by
  intro p l hd
  exact decor_mono ts p l _ hd

/-- `dark_bg` preserves the invariant. -/
theorem pres_dark_bg (ts : String) : PreservesDecor ts Active.dark_bg := by
  apply pres_runAll
  intro m hm
  simp only [List.mem_cons, List.mem_singleton, List.not_mem_nil,
    or_false] at hm
  rcases hm with h | h <;> subst h
  · exact pres_set_fill_color ts BG_PRIMARY
  · exact pres_rect ts 0 0 2100 2970

/-- Every `FeaturePDF` block helper preserves the invariant. -/
theorem pres_section_title (wo : Font → ℤ → String → List String)
    (now : Now) (t : String) :
    PreservesDecor now.long (Active.section_title (Active.hooks wo now) t) := by
  apply pres_runAll
  intro m hm
  simp only [List.mem_cons, List.not_mem_nil, or_false] at hm
  rcases hm with h | h | h | h | h | h | h | h <;> subst h
  · exact pres_set_font _ _ _ _
  · exact pres_set_text_color _ _
  · exact pres_ln _ _
  · exact pres_cell wo now _ _ _ _ _
  · exact pres_set_draw_color _ _
  · exact pres_set_line_width _ _
  · exact pres_withY _ _ (fun y => pres_line _ _ _ _ _)
  · exact pres_ln _ _

theorem pres_sub_title (wo : Font → ℤ → String → List String) (now : Now)
    (t : String) :
    PreservesDecor now.long (Active.sub_title (Active.hooks wo now) t) := by
  apply pres_runAll
  intro m hm
  simp only [List.mem_cons, List.not_mem_nil, or_false] at hm
  rcases hm with h | h | h | h | h <;> subst h
  · exact pres_set_font _ _ _ _
  · exact pres_set_text_color _ _
  · exact pres_ln _ _
  · exact pres_cell wo now _ _ _ _ _
  · exact pres_ln _ _

theorem pres_body_text (wo : Font → ℤ → String → List String) (now : Now)
    (t : String) :
    PreservesDecor now.long (Active.body_text (Active.hooks wo now) t) := by
  apply pres_runAll
  intro m hm
  simp only [List.mem_cons, List.not_mem_nil, or_false] at hm
  rcases hm with h | h | h | h <;> subst h
  · exact pres_set_font _ _ _ _
  · exact pres_set_text_color _ _
  · exact pres_multi_cell wo now _ _ _ _
  · exact pres_ln _ _

theorem pres_bullet (wo : Font → ℤ → String → List String) (now : Now)
    (t : String) (ind : ℤ) :
    PreservesDecor now.long (Active.bullet (Active.hooks wo now) t ind) := by
  intro p l hd
  refine pres_runAll now.long _ ?_ p l hd
  intro m hm
  simp only [List.mem_cons, List.not_mem_nil, or_false] at hm
  rcases hm with h | h | h | h | h | h | h | h <;> subst h
  · exact pres_set_font _ _ _ _
  · exact pres_set_text_color _ _
  · exact pres_set_x _ _
  · exact pres_set_text_color _ _
  · exact pres_cell wo now _ _ _ _ _
  · exact pres_set_text_color _ _
  · exact pres_multi_cell wo now _ _ _ _
  · exact pres_ln _ _

theorem pres_code_block (wo : Font → ℤ → String → List String) (now : Now)
    (t : String) :
    PreservesDecor now.long (Active.code_block (Active.hooks wo now) t) := by
  apply pres_runAll
  intro m hm
  simp only [List.mem_cons, List.not_mem_nil, or_false] at hm
  rcases hm with h | h | h | h | h | h <;> subst h
  · exact pres_set_font _ _ _ _
  · exact pres_set_fill_color _ _
  · exact pres_set_text_color _ _
  · exact pres_set_x _ _
  · exact pres_multi_cell wo now _ _ _ _
  · exact pres_ln _ _

theorem pres_status_badge (wo : Font → ℤ → String → List String)
    (now : Now) (label status : String) :
    PreservesDecor now.long
      (Active.status_badge (Active.hooks wo now) label status) := by
  apply pres_runAll
  intro m hm
  simp only [List.mem_cons, List.not_mem_nil, or_false] at hm
  rcases hm with h | h | h | h <;> subst h
  · exact pres_set_font _ _ _ _
  · by_cases h1 : status = "complete" <;> by_cases h2 : status = "in-progress" <;>
      simp [h1, h2] <;> exact pres_set_text_color _ _
  · exact pres_cell wo now _ _ _ _ _
  · exact pres_ln _ _

theorem pres_checklist_row (wo : Font → ℤ → String → List String)
    (now : Now) (label : String) (done : Bool) :
    PreservesDecor now.long
      (checklist_row (Active.hooks wo now) label done) := by
  apply pres_runAll
  intro m hm
  simp only [List.mem_cons, List.not_mem_nil, or_false] at hm
  rcases hm with h | h | h | h | h | h <;> subst h
  · cases done <;> simp <;> exact pres_set_text_color _ _
  · exact pres_set_font _ _ _ _
  · exact pres_cell wo now _ _ _ _ _
  · exact pres_set_font _ _ _ _
  · exact pres_set_text_color _ _
  · exact pres_cell wo now _ _ _ _ _

theorem pres_toc_entry (wo : Font → ℤ → String → List String) (now : Now)
    (item : String) :
    PreservesDecor now.long (toc_entry (Active.hooks wo now) item) := by
  intro p l hd
  refine pres_runAll now.long _ ?_ p l hd
  intro m hm
  simp only [List.mem_cons, List.not_mem_nil, or_false] at hm
  rcases hm with h | h | h | h | h <;> subst h
  · exact pres_set_font _ _ _ _
  · exact pres_set_text_color _ _
  · exact pres_set_draw_color _ _
  · exact pres_line _ _ _ _ _
  · exact pres_cell wo now _ _ _ _ _

/-- The purpose-card positioning step of the cover preserves the
invariant. -/
theorem pres_card (ts : String) :
    PreservesDecor ts
      (withY (fun y => runAll [rect 150 y 1800 380, set_xy 200 (y + 40)])) := by
  refine pres_withY ts _ (fun y => pres_runAll ts _ ?_)
  intro m hm
  simp only [List.mem_cons, List.not_mem_nil, or_false] at hm
  rcases hm with h | h <;> subst h
  · exact pres_rect ts _ _ _ _
  · exact pres_set_xy ts _ _

theorem pres_cover_page (wo : Font → ℤ → String → List String) (now : Now)
    (t1 t2 ver purpose : String) :
    PreservesDecor now.long
      (cover_page (Active.hooks wo now) now t1 t2 ver purpose) := by
  apply pres_runAll
  intro m hm
  simp only [List.mem_cons, List.not_mem_nil, or_false] at hm
  rcases hm with h | h | h | h | h | h | h | h | h | h | h | h | h | h | h | h | h | h | h | h | h | h | h | h | h | h | h | h | h | h | h | h | h | h | h | h <;> subst h <;>
    first
      | exact pres_add_page wo now
      | exact pres_dark_bg _
      | exact pres_ln _ _
      | exact pres_set_font _ _ _ _
      | exact pres_set_text_color _ _
      | exact pres_set_fill_color _ _
      | exact pres_set_draw_color _ _
      | exact pres_set_line_width _ _
      | exact pres_set_x _ _
      | exact pres_cell wo now _ _ _ _ _
      | exact pres_multi_cell wo now _ _ _ _
      | exact pres_withY _ _ (fun y => pres_line _ _ _ _ _)
      | exact pres_card _

/-- Every block preserves the decoration invariant. -/
theorem pres_renderBlock (wo : Font → ℤ → String → List String)
    (now : Now) (b : Block) :
    PreservesDecor now.long (renderBlock (Active.hooks wo now) b) := by
  cases b with
  | sectionTitle t => exact pres_section_title wo now t
  | subTitle t => exact pres_sub_title wo now t
  | bodyText t => exact pres_body_text wo now t
  | bullet t ind => exact pres_bullet wo now t ind
  | codeBlock t => exact pres_code_block wo now t
  | statusBadge l st => exact pres_status_badge wo now l st
  | checkRow l d => exact pres_checklist_row wo now l d
  | tocEntry i => exact pres_toc_entry wo now i

/-- Every section preserves the decoration invariant. -/
theorem pres_renderSect (wo : Font → ℤ → String → List String)
    (now : Now) (sect : Sect) :
    PreservesDecor now.long (renderSect (Active.hooks wo now) now sect) := by
  cases sect with
  | cover t1 t2 ver purpose => exact pres_cover_page wo now t1 t2 ver purpose
  | blocks bs =>
      apply pres_runAll
      intro m hm
      simp only [List.cons_append, List.nil_append, List.mem_cons] at hm
      rcases hm with h | h | h
      · subst h; exact pres_add_page wo now
      · subst h; exact pres_dark_bg _
      · obtain ⟨b, _, hb⟩ := List.mem_map.mp h
        subst hb
        exact pres_renderBlock wo now b

/-- A whole document run preserves the decoration invariant. -/
theorem pres_renderDoc (wo : Font → ℤ → String → List String)
    (now : Now) (doc : List Sect) :
    PreservesDecor now.long (renderDoc (Active.hooks wo now) now doc) := by
  apply pres_runAll
  intro m hm
  obtain ⟨sect, _, hs⟩ := List.mem_map.mp hm
  subst hs
  exact pres_renderSect wo now sect

/-- After rendering and finalizing a document, every page of the
finished run carries the header band and its footer row. -/
theorem build_decor (wo : Font → ℤ → String → List String) (now : Now)
    (doc : List Sect) :
    ∀ pg, 1 ≤ pg → pg ≤ totalPages wo now doc →
      hdrBandOn pg (buildRun wo now doc).2 ∧
      ftrOp pg now.long ∈ (buildRun wo now doc).2 := by
  have hd0 : Decor now.long initPos [] := by
    refine ⟨?_, ?_, rfl⟩
    · intro pg a b
      simp [initPos] at b
      omega
    · intro pg a b
      simp [initPos] at b
  have hd1 := pres_renderDoc wo now doc initPos [] hd0
  set r1 := renderDoc (Active.hooks wo now) now doc initPos with hr1
  intro pg hpg1 hpg2
  by_cases hz : 1 ≤ r1.1.page
  · have hc := close_run wo now r1.1 hd1.2.2 hz
    have htot : totalPages wo now doc = r1.1.page := by
      simp [totalPages, buildRun, seqM_apply, ← hr1, hc, afterFooter]
    have hops : (buildRun wo now doc).2 = r1.2 ++ [ftrOp r1.1.page now.long] := by
      simp [buildRun, seqM_apply, ← hr1, hc]
    rw [htot] at hpg2
    rw [hops]
    obtain ⟨g1, g2, _⟩ := hd1
    have g1' := g1 pg hpg1 hpg2
    refine ⟨⟨List.mem_append_left _ (by simpa using g1'.1),
        List.mem_append_left _ (by simpa using g1'.2)⟩, ?_⟩
    by_cases hlt : pg < r1.1.page
    · exact List.mem_append_left _ (by simpa using g2 pg hpg1 hlt)
    · have : pg = r1.1.page := by omega
      subst this
      exact List.mem_append_right _ (by simp)
  · have htot : totalPages wo now doc = r1.1.page := by
      simp [totalPages, buildRun, seqM_apply, ← hr1, close, hz]
    omega

/-- C2 (amended): every page of a finished document — including pages
created by an automatic page break in mid-block — carries the header
band (background strip and rule) and its footer row; the full-page
background fill, by contrast, is applied only by the explicit `dark_bg`
calls at section starts, so auto-created pages lack it (see the
counterexample). -/
theorem C2_decoration_every_page (wo : Font → ℤ → String → List String)
    (now : Now) (doc : List Sect) :
    ∀ pg, 1 ≤ pg → pg ≤ totalPages wo now doc →
      hdrBandOn pg (outputOps wo now doc) ∧
      resolveOp (totalPages wo now doc) (ftrOp pg now.long) ∈
        outputOps wo now doc := by
  intro pg h1 h2
  obtain ⟨⟨hb1, hb2⟩, hf⟩ := build_decor wo now doc pg h1 h2
  refine ⟨⟨?_, ?_⟩, ?_⟩
  · exact List.mem_map.mpr ⟨_, hb1, rfl⟩
  · exact List.mem_map.mpr ⟨_, hb2, rfl⟩
  · exact List.mem_map.mpr ⟨_, hf, rfl⟩

/-- Witness for the C2 theorem: page 2 of the two-page split-code-block
document carries the header band and its resolved footer. -/
theorem C2_decoration_every_page_witness :
    (1 ≤ 2 ∧ 2 ≤ totalPages noWrap nowX docSplit) ∧
    (hdrBandOn 2 (outputOps noWrap nowX docSplit) ∧
      resolveOp (totalPages noWrap nowX docSplit) (ftrOp 2 nowX.long) ∈
        outputOps noWrap nowX docSplit) :=
  ⟨⟨by decide, by decide⟩,
    C2_decoration_every_page noWrap nowX docSplit 2 (by decide) (by decide)⟩

/-- C2 counterexample: in the split-code-block document the page
created by the automatic mid-block break (page 2) does NOT receive the
fixed full-page background fill — only explicitly started pages do. -/
theorem C2_background_counterexample :
    totalPages noWrap nowX docSplit = 2 ∧
    Op.rect 1 0 0 2100 2970 BG_PRIMARY ∈ outputOps noWrap nowX docSplit ∧
    Op.rect 2 0 0 2100 2970 BG_PRIMARY ∉ outputOps noWrap nowX docSplit :=
  ⟨by decide, by decide, by decide⟩

/-- C6: every page's footer shows the page's own number and the
document total: after the placeholder pass, each page `pg` of the
finished document carries a footer whose placeholder fragment has been
replaced by the final page count `N`, displaying
`"Page pg/N  |  Generated ts  |  CONFIDENTIAL"` — the same `N` on every
page, resolved only after all pages exist. -/
theorem C6_footer_total_pages (wo : Font → ℤ → String → List String)
    (now : Now) (doc : List Sect) :
    ∀ pg, 1 ≤ pg → pg ≤ totalPages wo now doc →
      (Op.text pg 100 2820 1900 100 ("Helvetica", "I", 75) TEXT_MUTED "C"
        [Piece.lit ("Page " ++ toString pg ++ "/"),
         Piece.lit (toString (totalPages wo now doc)),
         Piece.lit "  |  Generated ", Piece.stamp now.long,
         Piece.lit "  |  CONFIDENTIAL"] ∈ outputOps wo now doc) ∧
      flatten [Piece.lit ("Page " ++ toString pg ++ "/"),
         Piece.lit (toString (totalPages wo now doc)),
         Piece.lit "  |  Generated ", Piece.stamp now.long,
         Piece.lit "  |  CONFIDENTIAL"] =
        "Page " ++ toString pg ++ "/" ++ toString (totalPages wo now doc)
          ++ "  |  Generated " ++ now.long ++ "  |  CONFIDENTIAL" := by
  intro pg h1 h2
  obtain ⟨_, hfmem⟩ := build_decor wo now doc pg h1 h2
  constructor
  · refine List.mem_map.mpr ⟨ftrOp pg now.long, hfmem, ?_⟩
    simp [resolveOp, ftrOp, ftrContent, resolvePiece]
  · simp [flatten, Piece.render, String.append_assoc]

/-- Witness for the C6 theorem on page 1 of the two-page
split-code-block document. -/
theorem C6_footer_total_pages_witness :
    (1 ≤ 1 ∧ 1 ≤ totalPages noWrap nowX docSplit) ∧
    ((Op.text 1 100 2820 1900 100 ("Helvetica", "I", 75) TEXT_MUTED "C"
        [Piece.lit ("Page " ++ toString 1 ++ "/"),
         Piece.lit (toString (totalPages noWrap nowX docSplit)),
         Piece.lit "  |  Generated ", Piece.stamp nowX.long,
         Piece.lit "  |  CONFIDENTIAL"] ∈ outputOps noWrap nowX docSplit) ∧
      flatten [Piece.lit ("Page " ++ toString 1 ++ "/"),
         Piece.lit (toString (totalPages noWrap nowX docSplit)),
         Piece.lit "  |  Generated ", Piece.stamp nowX.long,
         Piece.lit "  |  CONFIDENTIAL"] =
        "Page " ++ toString 1 ++ "/" ++
          toString (totalPages noWrap nowX docSplit) ++
          "  |  Generated " ++ nowX.long ++ "  |  CONFIDENTIAL") :=
  ⟨⟨by decide, by decide⟩,
    C6_footer_total_pages noWrap nowX docSplit 1 (by decide) (by decide)⟩

/-- Every step simulates itself. -/
theorem simM_refl (m : M) : SimM m m := fun _ => ⟨rfl, rfl⟩

/-- Sequencing respects simulation. -/
theorem simM_seqM {f1 f2 g1 g2 : M} (hf : SimM f1 f2) (hg : SimM g1 g2) :
    SimM (seqM f1 g1) (seqM f2 g2) := by
  intro p
  obtain ⟨e1, e2⟩ := hf p
  obtain ⟨e3, e4⟩ := hg (f1 p).1
  rw [seqM_apply, seqM_apply, ← e1]
  exact ⟨e3, by simp [e2, e4]⟩

/-- Running lists of pairwise-simulating steps respects simulation. -/
theorem simM_runAll {ms1 ms2 : List M} (h : List.Forall₂ SimM ms1 ms2) :
    SimM (runAll ms1) (runAll ms2) := by
  induction h with
  | nil => exact simM_refl _
  | cons h1 _ ih => exact simM_seqM h1 ih

/-- The two footers (different timestamps) simulate each other: they
reach the same state and emit the same primitive up to the timestamp
fragment. -/
theorem simM_footer (ts1 ts2 : String) :
    SimM (Active.footer ts1) (Active.footer ts2) := by
  intro p
  simp only [Active.footer, runAll_cons, runAll_nil, seqM_apply, idM,
    set_y, set_font, set_text_color, withPage, cell, add_page, hk0,
    Pos.withStyle, Pos.style]
  split <;>
    simp [scrubOp, scrubPiece]

/-- `add_page` respects simulation of the hook bundles. -/
theorem simM_add_page {hk1 hk2 : Hooks} (hs : SimHooks hk1 hk2) :
    SimM (add_page hk1) (add_page hk2) := by
  intro p
  obtain ⟨hw, hhdr, hftr⟩ := hs
  obtain ⟨e1, e2⟩ := hftr { p with inFooter := true }
  simp only [add_page]
  by_cases h1p : 1 ≤ p.page
  · simp only [h1p, if_pos]
    rw [← e1]
    obtain ⟨e3, e4⟩ := hhdr
      { Pos.withStyle { (hk1.ftr { p with inFooter := true }).1 with
          inFooter := false } p.style with
        page := (hk1.ftr { p with inFooter := true }).1.page + 1
        x := lMargin
        y := tMargin }
    rw [← e3]
    exact ⟨rfl, by simp [e2, e4]⟩
  · simp only [h1p, if_neg, ite_false]
    obtain ⟨e3, e4⟩ := hhdr
      { Pos.withStyle p p.style with
        page := p.page + 1
        x := lMargin
        y := tMargin }
    rw [← e3]
    exact ⟨rfl, by simp [e4]⟩

/-- `cell` respects simulation (equal geometry, scrub-equal content). -/
theorem simM_cell {hk1 hk2 : Hooks} (hs : SimHooks hk1 hk2) (w h : ℤ)
    {c1 c2 : List Piece} (hc : c1.map scrubPiece = c2.map scrubPiece)
    (a : String) (nxt : Bool) :
    SimM (cell hk1 w h c1 a nxt) (cell hk2 w h c2 a nxt) := by
  intro p
  obtain ⟨e1, e2⟩ := simM_add_page hs p
  simp only [cell]
  by_cases hb : pageBreakTrigger < p.y + h ∧ p.inFooter = false
  · simp only [hb, if_pos]
    rw [← e1]
    exact ⟨rfl, by simp [scrubOp, e2, hc]⟩
  · simp only [hb, if_neg, ite_false]
    exact ⟨by trivial, by simp [scrubOp, hc]⟩

/-- One `multi_cell` line respects simulation. -/
theorem simM_mcLine {hk1 hk2 : Hooks} (hs : SimHooks hk1 hk2)
    (x0 w0 h : ℤ) (fill : Bool) (str : String) :
    SimM (mcLine hk1 x0 w0 h fill str) (mcLine hk2 x0 w0 h fill str) := by
  intro p
  obtain ⟨e1, e2⟩ := simM_add_page hs p
  simp only [mcLine]
  by_cases hb : pageBreakTrigger < p.y + h ∧ p.inFooter = false
  · simp only [hb, if_pos]
    rw [← e1]
    exact ⟨rfl, by simp [scrubOp, e2]⟩
  · simp only [hb, if_neg, ite_false]
    exact ⟨by trivial, by simp [scrubOp]⟩

/-- The `multi_cell` line loop respects simulation. -/
theorem simM_mcLines {hk1 hk2 : Hooks} (hs : SimHooks hk1 hk2)
    (x0 w0 h : ℤ) (fill : Bool) (ls : List String) :
    SimM (mcLines hk1 x0 w0 h fill ls) (mcLines hk2 x0 w0 h fill ls) := by
  induction ls with
  | nil => exact simM_refl _
  | cons str ss ih =>
      exact simM_seqM (simM_mcLine hs x0 w0 h fill str) ih

/-- `multi_cell` respects simulation. -/
theorem simM_multi_cell {hk1 hk2 : Hooks} (hs : SimHooks hk1 hk2)
    (w h : ℤ) (t : String) (fill : Bool) :
    SimM (multi_cell hk1 w h t fill) (multi_cell hk2 w h t fill) := by
  intro p
  simp only [multi_cell, splitLines, hs.1]
  obtain ⟨e1, e2⟩ := simM_mcLines hs p.x (cellW w p.x) h fill
    ((hardLines t).flatMap (hk2.wrap p.font (cellW w p.x))) p
  rw [← e1]
  exact ⟨rfl, e2⟩

/-- The hook bundles of the same generator at two different wall-clock
times agree up to timestamp fragments. -/
theorem simHooks_active (wo : Font → ℤ → String → List String)
    (n1 n2 : Now) :
    SimHooks (Active.hooks wo n1) (Active.hooks wo n2) :=
  ⟨rfl, simM_refl _, simM_footer n1.long n2.long⟩

theorem simM_section_title {hk1 hk2 : Hooks} (hs : SimHooks hk1 hk2)
    (t : String) :
    SimM (Active.section_title hk1 t) (Active.section_title hk2 t) :=
  simM_runAll (.cons (simM_refl _) (.cons (simM_refl _)
    (.cons (simM_refl _) (.cons (simM_cell hs _ _ rfl _ _)
    (.cons (simM_refl _) (.cons (simM_refl _) (.cons (simM_refl _)
    (.cons (simM_refl _) .nil))))))))

theorem simM_sub_title {hk1 hk2 : Hooks} (hs : SimHooks hk1 hk2)
    (t : String) :
    SimM (Active.sub_title hk1 t) (Active.sub_title hk2 t) :=
  simM_runAll (.cons (simM_refl _) (.cons (simM_refl _)
    (.cons (simM_refl _) (.cons (simM_cell hs _ _ rfl _ _)
    (.cons (simM_refl _) .nil)))))

theorem simM_body_text {hk1 hk2 : Hooks} (hs : SimHooks hk1 hk2)
    (t : String) :
    SimM (Active.body_text hk1 t) (Active.body_text hk2 t) :=
  simM_runAll (.cons (simM_refl _) (.cons (simM_refl _)
    (.cons (simM_multi_cell hs _ _ _ _) (.cons (simM_refl _) .nil))))

theorem simM_bullet {hk1 hk2 : Hooks} (hs : SimHooks hk1 hk2)
    (t : String) (ind : ℤ) :
    SimM (Active.bullet hk1 t ind) (Active.bullet hk2 t ind) := by
  intro p
  exact simM_runAll (.cons (simM_refl _) (.cons (simM_refl _)
    (.cons (simM_refl _) (.cons (simM_refl _)
    (.cons (simM_cell hs _ _ rfl _ _) (.cons (simM_refl _)
    (.cons (simM_multi_cell hs _ _ _ _) (.cons (simM_refl _) .nil)))))))) p

theorem simM_code_block {hk1 hk2 : Hooks} (hs : SimHooks hk1 hk2)
    (t : String) :
    SimM (Active.code_block hk1 t) (Active.code_block hk2 t) :=
  simM_runAll (.cons (simM_refl _) (.cons (simM_refl _)
    (.cons (simM_refl _) (.cons (simM_refl _)
    (.cons (simM_multi_cell hs _ _ _ _) (.cons (simM_refl _) .nil))))))

theorem simM_status_badge {hk1 hk2 : Hooks} (hs : SimHooks hk1 hk2)
    (label status : String) :
    SimM (Active.status_badge hk1 label status)
      (Active.status_badge hk2 label status) :=
  simM_runAll (.cons (simM_refl _) (.cons (simM_refl _)
    (.cons (simM_cell hs _ _ rfl _ _) (.cons (simM_refl _) .nil))))

theorem simM_checklist_row {hk1 hk2 : Hooks} (hs : SimHooks hk1 hk2)
    (label : String) (done : Bool) :
    SimM (checklist_row hk1 label done) (checklist_row hk2 label done) :=
  simM_runAll (.cons (simM_refl _) (.cons (simM_refl _)
    (.cons (simM_cell hs _ _ rfl _ _) (.cons (simM_refl _)
    (.cons (simM_refl _) (.cons (simM_cell hs _ _ rfl _ _) .nil))))))

theorem simM_toc_entry {hk1 hk2 : Hooks} (hs : SimHooks hk1 hk2)
    (item : String) :
    SimM (toc_entry hk1 item) (toc_entry hk2 item) := by
  intro p
  exact simM_runAll (.cons (simM_refl _) (.cons (simM_refl _)
    (.cons (simM_refl _) (.cons (simM_refl _)
    (.cons (simM_cell hs _ _ rfl _ _) .nil))))) p

/-- The cover pages at two different wall-clock times simulate each
other (the Last-Updated stamp is the only difference). -/
theorem simM_cover_page {hk1 hk2 : Hooks} (hs : SimHooks hk1 hk2)
    (n1 n2 : Now) (t1 t2 ver purpose : String) :
    SimM (cover_page hk1 n1 t1 t2 ver purpose)
      (cover_page hk2 n2 t1 t2 ver purpose) :=
  simM_runAll (.cons (simM_add_page hs) (.cons (simM_refl _) (.cons (simM_refl _) (.cons (simM_refl _) (.cons (simM_refl _) (.cons (simM_refl _) (.cons (simM_refl _) (.cons (simM_refl _) (.cons (simM_refl _) (.cons (simM_cell hs _ _ rfl _ _) (.cons (simM_cell hs _ _ rfl _ _) (.cons (simM_refl _) (.cons (simM_refl _) (.cons (simM_refl _) (.cons (simM_refl _) (.cons (simM_refl _) (.cons (simM_refl _) (.cons (simM_cell hs _ _ rfl _ _) (.cons (simM_refl _) (.cons (simM_refl _) (.cons (simM_refl _) (.cons (simM_cell hs _ _ (by simp [scrubPiece]) _ _) (.cons (simM_refl _) (.cons (simM_refl _) (.cons (simM_refl _) (.cons (simM_cell hs _ _ rfl _ _) (.cons (simM_refl _) (.cons (simM_refl _) (.cons (simM_refl _) (.cons (simM_refl _) (.cons (simM_refl _) (.cons (simM_cell hs _ _ rfl _ _) (.cons (simM_refl _) (.cons (simM_refl _) (.cons (simM_refl _) (.cons (simM_multi_cell hs _ _ _ _) .nil))))))))))))))))))))))))))))))))))))

theorem simM_renderBlock {hk1 hk2 : Hooks} (hs : SimHooks hk1 hk2)
    (b : Block) :
    SimM (renderBlock hk1 b) (renderBlock hk2 b) := by
  cases b with
  | sectionTitle t => exact simM_section_title hs t
  | subTitle t => exact simM_sub_title hs t
  | bodyText t => exact simM_body_text hs t
  | bullet t ind => exact simM_bullet hs t ind
  | codeBlock t => exact simM_code_block hs t
  | statusBadge l st => exact simM_status_badge hs l st
  | checkRow l d => exact simM_checklist_row hs l d
  | tocEntry i => exact simM_toc_entry hs i

/-- Pairwise simulation of two maps of the same list. -/
theorem forall₂_map_same {α : Type} (f g : α → M) (l : List α)
    (h : ∀ a, SimM (f a) (g a)) :
    List.Forall₂ SimM (l.map f) (l.map g) := by
  induction l with
  | nil => exact .nil
  | cons a l ih => exact .cons (h a) ih

theorem simM_renderSect {hk1 hk2 : Hooks} (hs : SimHooks hk1 hk2)
    (n1 n2 : Now) (sect : Sect) :
    SimM (renderSect hk1 n1 sect) (renderSect hk2 n2 sect) := by
  cases sect with
  | cover t1 t2 ver purpose => exact simM_cover_page hs n1 n2 t1 t2 ver purpose
  | blocks bs =>
      refine simM_runAll ?_
      exact .cons (simM_add_page hs) (.cons (simM_refl _)
        (forall₂_map_same _ _ bs (simM_renderBlock hs)))

theorem simM_renderDoc {hk1 hk2 : Hooks} (hs : SimHooks hk1 hk2)
    (n1 n2 : Now) (doc : List Sect) :
    SimM (renderDoc hk1 n1 doc) (renderDoc hk2 n2 doc) :=
  simM_runAll (forall₂_map_same _ _ doc (simM_renderSect hs n1 n2))

theorem simM_close {hk1 hk2 : Hooks} (hs : SimHooks hk1 hk2) :
    SimM (close hk1) (close hk2) := by
  intro p
  obtain ⟨e1, e2⟩ := hs.2.2 { p with inFooter := true }
  simp only [close]
  by_cases h1 : 1 ≤ p.page
  · simp only [h1, if_pos]
    rw [← e1]
    exact ⟨rfl, e2⟩
  · simp only [h1, if_neg, ite_false]
    exact ⟨by trivial, by trivial⟩

/-- Blanking the timestamp commutes with resolving the total-page
placeholder. -/
theorem scrub_resolve_piece (n : Nat) (q : Piece) :
    scrubPiece (resolvePiece n q) = resolvePiece n (scrubPiece q) := by
  cases q <;> rfl

theorem scrub_resolve_comm (n : Nat) (op : Op) :
    scrubOp (resolveOp n op) = resolveOp n (scrubOp op) := by
  cases op <;>
    simp [scrubOp, resolveOp, List.map_map, Function.comp_def,
      scrub_resolve_piece]

/-- C4: rendering the same section sequence with two fresh backends at
different wall-clock times produces identical finished documents up to
the embedded generation timestamps (the Last-Updated date on the cover
and the Generated stamp in every footer): blanking the timestamp
fragments makes the two outputs equal primitive-for-primitive. -/
theorem C4_render_timestamp_invariant
    (wo : Font → ℤ → String → List String) (n1 n2 : Now)
    (doc : List Sect) :
    (outputOps wo n1 doc).map scrubOp =
      (outputOps wo n2 doc).map scrubOp := by
  have hs := simHooks_active wo n1 n2
  obtain ⟨e1, e2⟩ :=
    simM_seqM (simM_renderDoc hs n1 n2 doc) (simM_close hs) initPos
  have htot : totalPages wo n1 doc = totalPages wo n2 doc := by
    simp only [totalPages, buildRun]
    rw [e1]
  simp only [outputOps, buildRun] at *
  calc (((seqM (renderDoc (Active.hooks wo n1) n1 doc)
          (close (Active.hooks wo n1)) initPos).2).map
            (resolveOp (totalPages wo n1 doc))).map scrubOp
      = (((seqM (renderDoc (Active.hooks wo n1) n1 doc)
          (close (Active.hooks wo n1)) initPos).2).map scrubOp).map
            (resolveOp (totalPages wo n1 doc)) := by
        simp [List.map_map, Function.comp_def, scrub_resolve_comm]
    _ = (((seqM (renderDoc (Active.hooks wo n2) n2 doc)
          (close (Active.hooks wo n2)) initPos).2).map scrubOp).map
            (resolveOp (totalPages wo n1 doc)) := by rw [e2]
    _ = (((seqM (renderDoc (Active.hooks wo n2) n2 doc)
          (close (Active.hooks wo n2)) initPos).2).map
            (resolveOp (totalPages wo n2 doc))).map scrubOp := by
        rw [htot]
        simp [List.map_map, Function.comp_def, scrub_resolve_comm]

/-- A step that keeps the page, keeps the footer flag, and emits only
onto the current page is monotone. -/
theorem mono_of_stable (m : M)
    (hs : ∀ p, ((m p).1).page = p.page ∧ ((m p).1).inFooter = p.inFooter)
    (ho : ∀ p, ∀ op ∈ (m p).2, op.pg = p.page) : MonoM m := by
  intro p hf
  refine ⟨le_of_eq (hs p).1.symm, by rw [(hs p).2]; exact hf, ?_⟩
  intro op hop
  exact le_of_eq (ho p op hop).symm

theorem mono_seqM {f g : M} (hf : MonoM f) (hg : MonoM g) :
    MonoM (seqM f g) := by
  intro p hp
  obtain ⟨a1, a2, a3⟩ := hf p hp
  obtain ⟨b1, b2, b3⟩ := hg (f p).1 a2
  rw [seqM_apply]
  refine ⟨le_trans a1 b1, b2, ?_⟩
  intro op hop
  rcases List.mem_append.mp hop with h | h
  · exact a3 op h
  · exact le_trans a1 (b3 op h)

theorem mono_runAll {ms : List M} (h : ∀ m ∈ ms, MonoM m) :
    MonoM (runAll ms) := by
  induction ms with
  | nil =>
      intro p hp
      simp [runAll, idM, hp]
  | cons m ms ih =>
      rw [runAll_cons]
      exact mono_seqM (h m (by simp)) (ih fun m' hm' => h m' (by simp [hm']))

theorem mono_withY (f : ℤ → M) (h : ∀ y, MonoM (f y)) : MonoM (withY f) :=
  fun p hp => h p.y p hp

theorem mono_add_page (wo : Font → ℤ → String → List String) (now : Now) :
    MonoM (add_page (Active.hooks wo now)) := by
  intro p hp
  rw [add_page_run wo now p hp]
  refine ⟨by simp [afterPage], rfl, ?_⟩
  intro op hop
  rcases List.mem_append.mp hop with h | h
  · rcases Nat.lt_or_ge p.page 1 with h0 | h0
    · simp [Nat.lt_one_iff.mp h0] at h
    · simp [h0] at h
      subst h
      simp [ftrOp, Op.pg]
  · simp [hdrOps] at h
    rcases h with h | h | h <;> subst h <;> simp [Op.pg]

theorem mono_cell (wo : Font → ℤ → String → List String) (now : Now)
    (w h : ℤ) (c : List Piece) (a : String) (nxt : Bool) :
    MonoM (cell (Active.hooks wo now) w h c a nxt) := by
  intro p hp
  by_cases hb : pageBreakTrigger < p.y + h
  · rw [cell_break wo now w h c a nxt p hb hp]
    obtain ⟨a1, a2, a3⟩ := mono_add_page wo now p hp
    rw [add_page_run wo now p hp] at a3
    refine ⟨?_, ?_, ?_⟩
    · cases nxt <;> simp [afterPage]
    · cases nxt <;> simp [afterPage]
    · intro op hop
      rcases List.mem_append.mp hop with h' | h'
      · exact a3 op h'
      · simp at h'
        subst h'
        simp [Op.pg]
  · rw [cell_fits _ w h c a nxt p (by omega)]
    refine ⟨?_, ?_, ?_⟩
    · cases nxt <;> simp
    · cases nxt <;> simp [hp]
    · intro op hop
      simp at hop
      subst hop
      simp [Op.pg]

theorem mono_mcLine (wo : Font → ℤ → String → List String) (now : Now)
    (x0 w0 h : ℤ) (fill : Bool) (str : String) :
    MonoM (mcLine (Active.hooks wo now) x0 w0 h fill str) := by
  intro p hp
  obtain ⟨a1, a2, a3⟩ := mono_add_page wo now p hp
  simp only [mcLine, hp, and_true]
  by_cases hb : pageBreakTrigger < p.y + h
  · simp only [hb, if_pos, true_and, and_true]
    refine ⟨by simpa using a1, by simpa using a2, ?_⟩
    intro op hop
    rcases List.mem_append.mp hop with h' | h'
    · exact a3 op h'
    · rcases List.mem_append.mp h' with h2 | h2
      · cases fill <;> simp at h2
        · subst h2; simpa using a1
      · simp at h2
        subst h2
        simpa using a1
  · simp only [hb, if_neg, ite_false, false_and]
    refine ⟨le_refl _, hp, ?_⟩
    intro op hop
    rcases List.mem_append.mp hop with h' | h'
    · simp at h'
    · rcases List.mem_append.mp h' with h2 | h2
      · cases fill <;> simp at h2
        · subst h2; simp [Op.pg]
      · simp at h2
        subst h2
        simp [Op.pg]

theorem mono_mcLines (wo : Font → ℤ → String → List String) (now : Now)
    (x0 w0 h : ℤ) (fill : Bool) (ls : List String) :
    MonoM (mcLines (Active.hooks wo now) x0 w0 h fill ls) := by
  induction ls with
  | nil =>
      intro p hp
      simp [mcLines, idM, hp]
  | cons str ss ih =>
      exact mono_seqM (mono_mcLine wo now x0 w0 h fill str) ih

theorem mono_multi_cell (wo : Font → ℤ → String → List String) (now : Now)
    (w h : ℤ) (t : String) (fill : Bool) :
    MonoM (multi_cell (Active.hooks wo now) w h t fill) := by
  intro p hp
  obtain ⟨a1, a2, a3⟩ := mono_mcLines wo now p.x (cellW w p.x) h fill
    (splitLines (Active.hooks wo now) p.font (cellW w p.x) t) p hp
  exact ⟨a1, a2, a3⟩

theorem mono_set_font (fam sty : String) (sz : ℤ) :
    MonoM (set_font fam sty sz) :=
  mono_of_stable _ (fun _ => ⟨rfl, rfl⟩) (fun _ _ h => by simp [set_font] at h)

theorem mono_set_text_color (c : Color) : MonoM (set_text_color c) :=
  mono_of_stable _ (fun _ => ⟨rfl, rfl⟩)
    (fun _ _ h => by simp [set_text_color] at h)

theorem mono_set_fill_color (c : Color) : MonoM (set_fill_color c) :=
  mono_of_stable _ (fun _ => ⟨rfl, rfl⟩)
    (fun _ _ h => by simp [set_fill_color] at h)

theorem mono_set_draw_color (c : Color) : MonoM (set_draw_color c) :=
  mono_of_stable _ (fun _ => ⟨rfl, rfl⟩)
    (fun _ _ h => by simp [set_draw_color] at h)

theorem mono_set_line_width (wd : ℤ) : MonoM (set_line_width wd) :=
  mono_of_stable _ (fun _ => ⟨rfl, rfl⟩)
    (fun _ _ h => by simp [set_line_width] at h)

theorem mono_set_x (v : ℤ) : MonoM (set_x v) :=
  mono_of_stable _ (fun _ => ⟨rfl, rfl⟩) (fun _ _ h => by simp [set_x] at h)

theorem mono_set_y (v : ℤ) : MonoM (set_y v) :=
  mono_of_stable _ (fun _ => ⟨rfl, rfl⟩) (fun _ _ h => by simp [set_y] at h)

theorem mono_set_xy (vx vy : ℤ) : MonoM (set_xy vx vy) :=
  mono_seqM (mono_set_y vy) (mono_set_x vx)

theorem mono_ln (h : ℤ) : MonoM (ln h) :=
  mono_of_stable _ (fun _ => ⟨rfl, rfl⟩) (fun _ _ h' => by simp [ln] at h')

theorem mono_rect (x y w h : ℤ) : MonoM (rect x y w h) :=
  mono_of_stable _ (fun _ => ⟨rfl, rfl⟩)
    (fun p op h' => by
      simp [rect] at h'
      subst h'
      simp [Op.pg])

theorem mono_line (x1 y1 x2 y2 : ℤ) : MonoM (line x1 y1 x2 y2) :=
  mono_of_stable _ (fun _ => ⟨rfl, rfl⟩)
    (fun p op h' => by
      simp [line] at h'
      subst h'
      simp [Op.pg])

theorem mono_dark_bg : MonoM Active.dark_bg := by
  apply mono_runAll
  intro m hm
  simp only [List.mem_cons, List.not_mem_nil, or_false] at hm
  rcases hm with h | h <;> subst h
  · exact mono_set_fill_color _
  · exact mono_rect _ _ _ _

theorem mono_section_title (wo : Font → ℤ → String → List String)
    (now : Now) (t : String) :
    MonoM (Active.section_title (Active.hooks wo now) t) := by
  apply mono_runAll
  intro m hm
  simp only [List.mem_cons, List.not_mem_nil, or_false] at hm
  rcases hm with h | h | h | h | h | h | h | h <;> subst h
  · exact mono_set_font _ _ _
  · exact mono_set_text_color _
  · exact mono_ln _
  · exact mono_cell wo now _ _ _ _ _
  · exact mono_set_draw_color _
  · exact mono_set_line_width _
  · exact mono_withY _ (fun y => mono_line _ _ _ _)
  · exact mono_ln _

theorem mono_sub_title (wo : Font → ℤ → String → List String) (now : Now)
    (t : String) :
    MonoM (Active.sub_title (Active.hooks wo now) t) := by
  apply mono_runAll
  intro m hm
  simp only [List.mem_cons, List.not_mem_nil, or_false] at hm
  rcases hm with h | h | h | h | h <;> subst h
  · exact mono_set_font _ _ _
  · exact mono_set_text_color _
  · exact mono_ln _
  · exact mono_cell wo now _ _ _ _ _
  · exact mono_ln _

theorem mono_body_text (wo : Font → ℤ → String → List String) (now : Now)
    (t : String) :
    MonoM (Active.body_text (Active.hooks wo now) t) := by
  apply mono_runAll
  intro m hm
  simp only [List.mem_cons, List.not_mem_nil, or_false] at hm
  rcases hm with h | h | h | h <;> subst h
  · exact mono_set_font _ _ _
  · exact mono_set_text_color _
  · exact mono_multi_cell wo now _ _ _ _
  · exact mono_ln _

theorem mono_bullet (wo : Font → ℤ → String → List String) (now : Now)
    (t : String) (ind : ℤ) :
    MonoM (Active.bullet (Active.hooks wo now) t ind) := by
  intro p hp
  refine mono_runAll ?_ p hp
  intro m hm
  simp only [List.mem_cons, List.not_mem_nil, or_false] at hm
  rcases hm with h | h | h | h | h | h | h | h <;> subst h
  · exact mono_set_font _ _ _
  · exact mono_set_text_color _
  · exact mono_set_x _
  · exact mono_set_text_color _
  · exact mono_cell wo now _ _ _ _ _
  · exact mono_set_text_color _
  · exact mono_multi_cell wo now _ _ _ _
  · exact mono_ln _

theorem mono_code_block (wo : Font → ℤ → String → List String)
    (now : Now) (t : String) :
    MonoM (Active.code_block (Active.hooks wo now) t) := by
  apply mono_runAll
  intro m hm
  simp only [List.mem_cons, List.not_mem_nil, or_false] at hm
  rcases hm with h | h | h | h | h | h <;> subst h
  · exact mono_set_font _ _ _
  · exact mono_set_fill_color _
  · exact mono_set_text_color _
  · exact mono_set_x _
  · exact mono_multi_cell wo now _ _ _ _
  · exact mono_ln _

theorem mono_status_badge (wo : Font → ℤ → String → List String)
    (now : Now) (label status : String) :
    MonoM (Active.status_badge (Active.hooks wo now) label status) := by
  apply mono_runAll
  intro m hm
  simp only [List.mem_cons, List.not_mem_nil, or_false] at hm
  rcases hm with h | h | h | h <;> subst h
  · exact mono_set_font _ _ _
  · by_cases h1 : status = "complete" <;>
      by_cases h2 : status = "in-progress" <;>
        simp [h1, h2] <;> exact mono_set_text_color _
  · exact mono_cell wo now _ _ _ _ _
  · exact mono_ln _

theorem mono_checklist_row (wo : Font → ℤ → String → List String)
    (now : Now) (label : String) (done : Bool) :
    MonoM (checklist_row (Active.hooks wo now) label done) := by
  apply mono_runAll
  intro m hm
  simp only [List.mem_cons, List.not_mem_nil, or_false] at hm
  rcases hm with h | h | h | h | h | h <;> subst h
  · cases done <;> simp <;> exact mono_set_text_color _
  · exact mono_set_font _ _ _
  · exact mono_cell wo now _ _ _ _ _
  · exact mono_set_font _ _ _
  · exact mono_set_text_color _
  · exact mono_cell wo now _ _ _ _ _

theorem mono_toc_entry (wo : Font → ℤ → String → List String) (now : Now)
    (item : String) :
    MonoM (toc_entry (Active.hooks wo now) item) := by
  intro p hp
  refine mono_runAll ?_ p hp
  intro m hm
  simp only [List.mem_cons, List.not_mem_nil, or_false] at hm
  rcases hm with h | h | h | h | h <;> subst h
  · exact mono_set_font _ _ _
  · exact mono_set_text_color _
  · exact mono_set_draw_color _
  · exact mono_line _ _ _ _
  · exact mono_cell wo now _ _ _ _ _

theorem mono_card :
    MonoM (withY (fun y => runAll [rect 150 y 1800 380, set_xy 200 (y + 40)])) := by
  refine mono_withY _ (fun y => mono_runAll ?_)
  intro m hm
  simp only [List.mem_cons, List.not_mem_nil, or_false] at hm
  rcases hm with h | h <;> subst h
  · exact mono_rect _ _ _ _
  · exact mono_set_xy _ _

theorem mono_cover_page (wo : Font → ℤ → String → List String)
    (now : Now) (t1 t2 ver purpose : String) :
    MonoM (cover_page (Active.hooks wo now) now t1 t2 ver purpose) := by
  apply mono_runAll
  intro m hm
  simp only [List.mem_cons, List.not_mem_nil, or_false] at hm
  rcases hm with h | h | h | h | h | h | h | h | h | h | h | h | h | h | h | h | h | h | h | h | h | h | h | h | h | h | h | h | h | h | h | h | h | h | h | h <;> subst h <;>
    first
      | exact mono_add_page wo now
      | exact mono_dark_bg
      | exact mono_ln _
      | exact mono_set_font _ _ _
      | exact mono_set_text_color _
      | exact mono_set_fill_color _
      | exact mono_set_draw_color _
      | exact mono_set_line_width _
      | exact mono_set_x _
      | exact mono_cell wo now _ _ _ _ _
      | exact mono_multi_cell wo now _ _ _ _
      | exact mono_withY _ (fun y => mono_line _ _ _ _)
      | exact mono_card

theorem mono_renderBlock (wo : Font → ℤ → String → List String)
    (now : Now) (b : Block) :
    MonoM (renderBlock (Active.hooks wo now) b) := by
  cases b with
  | sectionTitle t => exact mono_section_title wo now t
  | subTitle t => exact mono_sub_title wo now t
  | bodyText t => exact mono_body_text wo now t
  | bullet t ind => exact mono_bullet wo now t ind
  | codeBlock t => exact mono_code_block wo now t
  | statusBadge l st => exact mono_status_badge wo now l st
  | checkRow l d => exact mono_checklist_row wo now l d
  | tocEntry i => exact mono_toc_entry wo now i

theorem mono_renderSect (wo : Font → ℤ → String → List String)
    (now : Now) (sect : Sect) :
    MonoM (renderSect (Active.hooks wo now) now sect) := by
  cases sect with
  | cover t1 t2 ver purpose => exact mono_cover_page wo now t1 t2 ver purpose
  | blocks bs =>
      apply mono_runAll
      intro m hm
      simp only [List.cons_append, List.nil_append, List.mem_cons] at hm
      rcases hm with h | h | h
      · subst h; exact mono_add_page wo now
      · subst h; exact mono_dark_bg
      · obtain ⟨b, _, hb⟩ := List.mem_map.mp h
        subst hb
        exact mono_renderBlock wo now b

theorem mono_renderDoc (wo : Font → ℤ → String → List String)
    (now : Now) (doc : List Sect) :
    MonoM (renderDoc (Active.hooks wo now) now doc) := by
  apply mono_runAll
  intro m hm
  obtain ⟨sect, _, hs⟩ := List.mem_map.mp hm
  subst hs
  exact mono_renderSect wo now sect

/-- Run shape of the cover page from the fresh backend state, when its
purpose paragraph wraps to at most 21 lines (with the real fonts it
wraps to 4): every primitive lands on page 1, no automatic page break
occurs, and the run ends on page 1. -/
theorem cover_run (wo : Font → ℤ → String → List String) (now : Now)
    (t1 t2 ver purpose : String)
    (hL : ((splitLines (Active.hooks wo now) ("Helvetica", "", 95) 1700
      purpose).length : ℤ) ≤ 21) :
    cover_page (Active.hooks wo now) now t1 t2 ver purpose initPos =
      ({ initPos with
          page := 1
          x := 100
          y := 1720 + 50 * ((splitLines (Active.hooks wo now)
            ("Helvetica", "", 95) 1700 purpose).length : ℤ)
          fontFamily := "Helvetica"
          fontStyle := ""
          fontSize := 95
          textColor := TEXT_SECONDARY
          fillColor := BG_CARD
          drawColor := ACCENT
          lineWidth := 5 },
        coverOps now t1 t2 ver ++
          mcOps 1 200 1700 50 false BG_CARD TEXT_SECONDARY
            ("Helvetica", "", 95) 1720
            (splitLines (Active.hooks wo now) ("Helvetica", "", 95) 1700
              purpose)) := by
  have hm := multi_cell_no_break (Active.hooks wo now) 1700 50 purpose
    false
    { page := 1
      x := 200
      y := 1720
      fontFamily := "Helvetica"
      fontStyle := ""
      fontSize := 95
      textColor := TEXT_SECONDARY
      fillColor := BG_CARD
      drawColor := ACCENT
      lineWidth := 5
      inFooter := false }
    (by norm_num)
    (by
      simp only [Pos.font, cellW, pageBreakTrigger]
      norm_num
      omega)
  have hsplit : cover_page (Active.hooks wo now) now t1 t2 ver purpose =
      runAll (cover_pre (Active.hooks wo now) now t1 t2 ver ++
        [multi_cell (Active.hooks wo now) 1700 50 purpose false]) := rfl
  have hpre : runAll (cover_pre (Active.hooks wo now) now t1 t2 ver)
      initPos =
      ({ initPos with
          page := 1
          x := 200
          y := 1720
          fontFamily := "Helvetica"
          fontStyle := ""
          fontSize := 95
          textColor := TEXT_SECONDARY
          fillColor := BG_CARD
          drawColor := ACCENT
          lineWidth := 5 },
        coverOps now t1 t2 ver) := by
    rfl
  rw [hsplit, runAll_append, runAll_cons, runAll_nil, seqM_idM_right,
    seqM_apply, hpre]
  simp [hm, initPos, Pos.font, cellW, pageW, rMargin, lMargin]

/-- Every cover primitive lies on page 1. -/
theorem coverOps_pg (now : Now) (t1 t2 ver : String) :
    ∀ op ∈ coverOps now t1 t2 ver, op.pg = 1 := by
  intro op hop
  rcases List.mem_append.mp hop with h | h
  · simp only [hdrOps, List.mem_cons, List.not_mem_nil, or_false] at h
    rcases h with h | h | h <;> subst h <;> rfl
  · simp only [List.mem_cons, List.not_mem_nil, or_false] at h
    rcases h with h | h | h | h | h | h | h | h | h | h <;>
      subst h <;> rfl

/-- Run shape of a section that opens with a `section_title`, started
from a page-1 state: the backend finishes page 1 with its footer,
starts page 2 with the header band, paints the background, draws the
title at the top of page 2 (`y = 21` mm, directly below the header),
and continues the section body from `tocStartPos`. -/
theorem toc_sect_run (wo : Font → ℤ → String → List String) (now : Now)
    (t : String) (bs : List Block) (p : Pos) (hpg : p.page = 1)
    (hf : p.inFooter = false) :
    renderSect (Active.hooks wo now) now (.blocks (.sectionTitle t :: bs)) p =
      ((runAll (bs.map (renderBlock (Active.hooks wo now))) tocStartPos).1,
        ([ftrOp 1 now.long] ++ hdrOps 2 Active.headerTitle ++
          [Op.rect 2 0 0 2100 2970 BG_PRIMARY,
           Op.text 2 100 210 1900 100 ("Helvetica", "B", 140)
             TEXT_PRIMARY "" [Piece.lit t],
           Op.line 2 100 310 850 310 ACCENT 4]) ++
        (runAll (bs.map (renderBlock (Active.hooks wo now))) tocStartPos).2) := by
  have hsplit : renderSect (Active.hooks wo now) now
      (.blocks (.sectionTitle t :: bs)) p =
      runAll ([add_page (Active.hooks wo now), Active.dark_bg,
        Active.section_title (Active.hooks wo now) t] ++
        bs.map (renderBlock (Active.hooks wo now))) p := rfl
  have e3 := section_title_run (Active.hooks wo now) t
    { page := 2
      x := 100
      y := 170
      fontFamily := p.fontFamily
      fontStyle := p.fontStyle
      fontSize := p.fontSize
      textColor := p.textColor
      fillColor := BG_PRIMARY
      drawColor := p.drawColor
      lineWidth := p.lineWidth
      inFooter := false }
    (by norm_num [pageBreakTrigger])
  have h1 : runAll [add_page (Active.hooks wo now), Active.dark_bg,
      Active.section_title (Active.hooks wo now) t] p =
      (tocStartPos,
        [ftrOp 1 now.long] ++ hdrOps 2 Active.headerTitle ++
          [Op.rect 2 0 0 2100 2970 BG_PRIMARY,
           Op.text 2 100 210 1900 100 ("Helvetica", "B", 140)
             TEXT_PRIMARY "" [Piece.lit t],
           Op.line 2 100 310 850 310 ACCENT 4]) := by
    simp [runAll, seqM_apply, idM, add_page_run wo now p hf, dark_bg_run,
      e3, hpg, afterPage, tocStartPos]
  rw [hsplit, runAll_append, seqM_apply, h1]

/-- C5: in a document that opens with the active-mode cover followed by
a section (such as the table of contents), the cover occupies page 1
alone — every cover primitive lies on page 1, the following section's
title is drawn at the top of page 2, and every later primitive lies on
page 2 or beyond (page 1 receives nothing further except its own
footer, emitted by the page transition itself). -/
theorem C5_cover_page_isolated (wo : Font → ℤ → String → List String)
    (now : Now) (t : String) (bs : List Block) (rest : List Sect)
    (hL : ((splitLines (Active.hooks wo now) ("Helvetica", "", 95) 1700
      activePurpose).length : ℤ) ≤ 21) :
    ∃ tail,
      ((renderDoc (Active.hooks wo now) now
          (activeCover :: Sect.blocks (.sectionTitle t :: bs) :: rest)
          initPos).2 =
        (coverOps now "Admin / User Mode Switch" "Build Breakdown"
            "Version 1.0  |  Status: Pushed to Main" ++
          mcOps 1 200 1700 50 false BG_CARD TEXT_SECONDARY
            ("Helvetica", "", 95) 1720
            (splitLines (Active.hooks wo now) ("Helvetica", "", 95) 1700
              activePurpose)) ++
        (([ftrOp 1 now.long] ++ hdrOps 2 Active.headerTitle ++
          [Op.rect 2 0 0 2100 2970 BG_PRIMARY,
           Op.text 2 100 210 1900 100 ("Helvetica", "B", 140)
             TEXT_PRIMARY "" [Piece.lit t],
           Op.line 2 100 310 850 310 ACCENT 4]) ++ tail)) ∧
      (∀ op ∈ coverOps now "Admin / User Mode Switch" "Build Breakdown"
          "Version 1.0  |  Status: Pushed to Main" ++
          mcOps 1 200 1700 50 false BG_CARD TEXT_SECONDARY
            ("Helvetica", "", 95) 1720
            (splitLines (Active.hooks wo now) ("Helvetica", "", 95) 1700
              activePurpose), op.pg = 1) ∧
      (∀ op ∈ tail, 2 ≤ op.pg) := by
  have hsplit : renderDoc (Active.hooks wo now) now
      (activeCover :: Sect.blocks (.sectionTitle t :: bs) :: rest) =
      seqM (renderSect (Active.hooks wo now) now activeCover)
        (seqM (renderSect (Active.hooks wo now) now
          (.blocks (.sectionTitle t :: bs)))
          (renderDoc (Active.hooks wo now) now rest)) := rfl
  have hcov : renderSect (Active.hooks wo now) now activeCover initPos =
      cover_page (Active.hooks wo now) now "Admin / User Mode Switch"
        "Build Breakdown" "Version 1.0  |  Status: Pushed to Main"
        activePurpose initPos := rfl
  rw [cover_run wo now _ _ _ _ hL] at hcov
  have htoc := toc_sect_run wo now t bs
    ((renderSect (Active.hooks wo now) now activeCover initPos).1)
    (by rw [hcov]) (by rw [hcov]; rfl)
  have hmb := @mono_runAll (bs.map (renderBlock (Active.hooks wo now)))
    (fun m hm => by
      obtain ⟨b, _, hb⟩ := List.mem_map.mp hm
      subst hb
      exact mono_renderBlock wo now b)
    tocStartPos rfl
  have hmr := mono_renderDoc wo now rest
    ((runAll (bs.map (renderBlock (Active.hooks wo now)))
      tocStartPos).1) hmb.2.1
  refine ⟨(runAll (bs.map (renderBlock (Active.hooks wo now)))
      tocStartPos).2 ++
    (renderDoc (Active.hooks wo now) now rest
      ((runAll (bs.map (renderBlock (Active.hooks wo now)))
        tocStartPos).1)).2, ?_, ?_, ?_⟩
  · rw [hsplit]
    simp only [seqM_apply]
    rw [htoc]
    rw [hcov]
    simp [List.append_assoc]
  · intro op hop
    rcases List.mem_append.mp hop with h | h
    · exact coverOps_pg now _ _ _ op h
    · exact mcOps_pg 1 200 1700 50 false BG_CARD TEXT_SECONDARY
        ("Helvetica", "", 95) 1720 _ op h
  · intro op hop
    rcases List.mem_append.mp hop with h | h
    · exact hmb.2.2 op h
    · exact le_trans hmb.1 (hmr.2.2 op h)

/-- Witness for C5 at the concrete active-mode document (cover followed
by a one-title table-of-contents section) with the no-wrapping oracle:
the purpose paragraph is a single hard line, so the 21-line bound
holds by computation. -/
theorem C5_cover_page_isolated_witness :
    (((splitLines (Active.hooks noWrap nowX) ("Helvetica", "", 95) 1700
      activePurpose).length : ℤ) ≤ 21) ∧
    ∃ tail,
      ((renderDoc (Active.hooks noWrap nowX) nowX
          (activeCover ::
            Sect.blocks [.sectionTitle "Table of Contents"] :: [])
          initPos).2 =
        (coverOps nowX "Admin / User Mode Switch" "Build Breakdown"
            "Version 1.0  |  Status: Pushed to Main" ++
          mcOps 1 200 1700 50 false BG_CARD TEXT_SECONDARY
            ("Helvetica", "", 95) 1720
            (splitLines (Active.hooks noWrap nowX) ("Helvetica", "", 95)
              1700 activePurpose)) ++
        (([ftrOp 1 nowX.long] ++ hdrOps 2 Active.headerTitle ++
          [Op.rect 2 0 0 2100 2970 BG_PRIMARY,
           Op.text 2 100 210 1900 100 ("Helvetica", "B", 140)
             TEXT_PRIMARY "" [Piece.lit "Table of Contents"],
           Op.line 2 100 310 850 310 ACCENT 4]) ++ tail)) ∧
      (∀ op ∈ coverOps nowX "Admin / User Mode Switch" "Build Breakdown"
          "Version 1.0  |  Status: Pushed to Main" ++
          mcOps 1 200 1700 50 false BG_CARD TEXT_SECONDARY
            ("Helvetica", "", 95) 1720
            (splitLines (Active.hooks noWrap nowX) ("Helvetica", "", 95)
              1700 activePurpose), op.pg = 1) ∧
      (∀ op ∈ tail, 2 ≤ op.pg) :=
  ⟨by decide,
    C5_cover_page_isolated noWrap nowX "Table of Contents" [] []
      (by decide)⟩

end PDFGen
